import Mathlib

/-!
Verification of `lib/utils.py` of the rplattack repository.

The development shallowly embeds the Python code into Lean:

* Python values appearing in configuration dictionaries are modelled by the
  inductive type `PyVal` (`None`, `bool`, `int`, `str`, lists, dicts).  The
  program never manipulates non-integral `float` configuration values in the
  claims under study, so no float constructor is included; `isinstance(x,
  (int, float))` is modelled as "integral number", and Python's
  `isinstance(True, int) == True` quirk is preserved by letting booleans count
  as numbers with values 0 and 1.
* Python dicts are association lists looked up at the first occurrence of a
  key; all dicts built by the program have distinct keys, as real Python
  dicts do.
* Fallible operations (attribute errors, key errors, type errors, missing
  files) return `Except String`.
* Functions that mutate a dictionary or the filesystem in place are modelled
  by explicit state passing: they return the post-call state of the mutated
  object together with their Python return value.
-/

/-- Model of the Python values stored in configuration dictionaries. -/
inductive PyVal where
  | none : PyVal
  | bool (b : Bool) : PyVal
  | int (n : Int) : PyVal
  | str (s : String) : PyVal
  | list (l : List PyVal) : PyVal
  | dict (d : List (String × PyVal)) : PyVal

/-- A Python dictionary with string keys, as used for configurations. -/
abbrev Dict := List (String × PyVal)

/-- Model of the identity test `x is None`. -/
def isNone : PyVal → Bool
  | PyVal.none => true
  | _ => false

/-- Python truthiness of a value (`bool(v)`). -/
def pyTruthy : PyVal → Bool
  | PyVal.none => false
  | PyVal.bool b => b
  | PyVal.int n => decide (n ≠ 0)
  | PyVal.str s => !(s == "")
  | PyVal.list [] => false
  | PyVal.list (_ :: _) => true
  | PyVal.dict [] => false
  | PyVal.dict (_ :: _) => true

/-- Dictionary lookup (`d.get(k)`), first occurrence of the key. -/
def lookupD : Dict → String → Option PyVal
  | [], _ => Option.none
  | (k, v) :: rest, key => if k == key then some v else lookupD rest key

/-- Removal of a key from a dictionary (`d.pop(k, ...)` leaves `d` without `k`). -/
def eraseKey (d : Dict) (key : String) : Dict :=
  d.filter (fun p => p.1 != key)

/-- Update of an existing key of a dictionary (`d[k] = v`); the first entry
holding the key is overwritten in place, other entries are untouched.  If the
key is absent the entry is appended, as Python insertion would do. -/
def updateD : Dict → String → PyVal → Dict
  | [], key, v => [(key, v)]
  | (k, w) :: rest, key, v =>
      if k == key then (k, v) :: rest else (k, w) :: updateD rest key v

/-- Integral value of a Python number.  `bool` is a subclass of `int` in
Python, so `True` and `False` count as 1 and 0. -/
def toI : PyVal → Option Int
  | PyVal.int n => some n
  | PyVal.bool b => some (if b then 1 else 0)
  | _ => Option.none

/-- Model of `isinstance(x, int)` (booleans included, floats not modelled). -/
def pyIsInt (v : PyVal) : Bool := (toI v).isSome

/-- Model of `isinstance(x, (int, float))`; the configurations studied here
carry integral numbers only, so this coincides with `pyIsInt`. -/
def pyIsNum (v : PyVal) : Bool := (toI v).isSome

/-- Model of `isinstance(x, bool)`. -/
def pyIsBool : PyVal → Bool
  | PyVal.bool _ => true
  | _ => false

/-- Model of `isinstance(x, string_types)`. -/
def pyIsStr : PyVal → Bool
  | PyVal.str _ => true
  | _ => false

/-- Numeric strict comparison `a > b` on Python values; the program only
compares already-validated numbers, non-numbers compare false. -/
def pyGT (a b : PyVal) : Bool :=
  match toI a, toI b with
  | some x, some y => decide (y < x)
  | _, _ => false

/-- Numeric comparison `a >= b` on Python values. -/
def pyGE (a b : PyVal) : Bool :=
  match toI a, toI b with
  | some x, some y => decide (y ≤ x)
  | _, _ => false

/-- Membership of a Python value in a list of strings (`x in names`). -/
def strMem (v : PyVal) (names : List String) : Bool :=
  match v with
  | PyVal.str s => names.contains s
  | _ => false

/-- The value `2 * x` computed at the call site of the interference-range
parameter (`default=2*params["tx_range"]`).  The transmission range is always
a validated number at that point, so only the numeric case is reachable. -/
def pyDouble (v : PyVal) : PyVal :=
  match toI v with
  | some n => PyVal.int (2 * n)
  | Option.none => PyVal.none

/-- Model of the comparison `x >= sqrt(2.0) * m` used for the area side
(`m` is the already-resolved minimum distance).  For integral values the
exact real comparison is `0 ≤ x ∧ 2*m^2 ≤ x^2`; `sqrt(2)` being irrational,
equality never occurs for nonzero integers, and the 1-ulp rounding of the
Python float product cannot move an integral input across the boundary. -/
def sqrtTwoLE (m v : PyVal) : Bool :=
  match toI m, toI v with
  | some a, some b => decide (0 ≤ b ∧ 2 * a * a ≤ b * b)
  | _, _ => false

/-- The validation condition handed to the parameter resolver: either a plain
callable (scalar mode) or a one-element list holding an element test
(list mode), exactly the two shapes occurring in `validated_parameters`.
A condition is a Python callable and may itself raise (for example
`os.path.exists` on a list, or a dict-membership test hashing an unhashable
value), so it is embedded as an `Except`-valued function. -/
inductive Cond where
  | scalarE (f : PyVal → Except String Bool) : Cond
  | listModeE (f : PyVal → Except String Bool) : Cond

/-- Scalar-mode condition built from a total predicate: the shape of every
validation lambda that can raise no exception (`isinstance` guards and
list-membership tests). -/
def Cond.scalar (f : PyVal → Bool) : Cond :=
  Cond.scalarE (fun v => Except.ok (f v))

/-- List-mode condition built from a total element predicate. -/
def Cond.listMode (f : PyVal → Bool) : Cond :=
  Cond.listModeE (fun v => Except.ok (f v))

/-- Element loop of list mode (utils.py lines 162-170): each element is tested
in order with the (possibly raising) condition; passing elements are kept in
order, each dropped element accounts for one warning, and an exception raised
by the condition on any element aborts the whole call. -/
def filterE (f : PyVal → Except String Bool) :
    List PyVal → Except String (List PyVal × Nat)
  | [] => Except.ok ([], 0)
  | x :: xs => do
      let b ← f x
      let (rest, w) ← filterE f xs
      pure (if b then (x :: rest, w) else (rest, w + 1))

/-- Result of one `get_parameter` call: the post-call state of the (mutated)
configuration dictionary, the returned value, and the number of warning
diagnostics emitted through the logger during the call. -/
structure GPOut where
  cfg : Dict
  value : PyVal
  warnings : Nat

/-- Lines 159-161 of `get_parameter`: the fallback chain
`(dictionary.get(section) or {}).get(key) or DEFAULTS.get(key)` followed by
the explicit `default` argument when the result is still `None`.  A truthy
non-dict section value makes `.get` fail with an `AttributeError`. -/
def parameterLookup (defaults : Dict) (cfg : Dict) (sec key : String)
    (default : PyVal) : Except String PyVal :=
  let secv := (lookupD cfg sec).getD PyVal.none
  let base := if pyTruthy secv then secv else PyVal.dict []
  match base with
  | PyVal.dict d =>
      let v2 := (lookupD d key).getD PyVal.none
      let p0 := if pyTruthy v2 then v2 else (lookupD defaults key).getD PyVal.none
      Except.ok (if isNone p0 && !(isNone default) then default else p0)
  | _ => Except.error "AttributeError: value has no attribute get"

/-- Embedding of `get_parameter` (utils.py lines 146-178).  The reserved
`silent` key is popped from the dictionary first; scalar conditions failing
fall back to the registered default `DEFAULTS[key]` (a `KeyError` if the
registry lacks the key); a list condition applied to a non-list value calls
the Python list object, a `TypeError`.  The `defaults` argument stands for
the module-level `DEFAULTS` registry. -/
def get_parameter (defaults : Dict) (cfg : Dict) (sec key : String)
    (cond : Cond) (default : PyVal) : Except String GPOut :=
  match parameterLookup defaults (eraseKey cfg "silent") sec key default with
  | Except.error e => Except.error e
  | Except.ok param =>
    match cond with
    | Cond.listModeE f =>
        match param with
        | PyVal.list l =>
            match filterE f l with
            | Except.error e => Except.error e
            | Except.ok (fl, w) =>
                Except.ok ⟨eraseKey cfg "silent", PyVal.list fl,
                  if pyTruthy ((lookupD cfg "silent").getD PyVal.none) then 0
                  else w⟩
        | _ => Except.error "TypeError: list object is not callable"
    | Cond.scalarE f =>
        match f param with
        | Except.error e => Except.error e
        | Except.ok b =>
            if b then Except.ok ⟨eraseKey cfg "silent", param, 0⟩
            else
              match lookupD defaults key with
              | some dv =>
                  Except.ok ⟨eraseKey cfg "silent", dv,
                    if pyTruthy ((lookupD cfg "silent").getD PyVal.none) then 0 else 1⟩
              | Option.none => Except.error "KeyError"

/-- Modelled from the spec: the registry `DEFAULTS` lives in
`lib/constants.py`, which is not among the provided sources.  Per the spec the
registry holds an entry for every key validated in scalar mode, and the
interference-range default is twice the transmission-range default.  The
concrete values are representative; the theorems that depend on the exact
numbers say so in their statements. -/
def DEFAULTS : Dict :=
  [("debug", PyVal.bool false),
   ("title", PyVal.str "default title"),
   ("goal", PyVal.str "default goal"),
   ("notes", PyVal.str "default notes"),
   ("duration", PyVal.int 300),
   ("number-motes", PyVal.int 10),
   ("repeat", PyVal.int 1),
   ("target", PyVal.str "z1"),
   ("type", PyVal.str "sensor"),
   ("building-blocks", PyVal.list []),
   ("external-library", PyVal.none),
   ("minimum-distance-from-root", PyVal.int 20),
   ("transmission-range", PyVal.int 50),
   ("interference-range", PyVal.int 100),
   ("area-square-side", PyVal.int 200)]

/-- Membership test `x in get_building_blocks()` (utils.py line 405):
`get_building_blocks` returns a dict, so the membership test hashes the
candidate — an unhashable value (a Python list or dict) raises a `TypeError`;
a hashable non-string is simply absent from the string-keyed dict. -/
def hashableMem (names : List String) (v : PyVal) : Except String Bool :=
  match v with
  | PyVal.list _ => Except.error "TypeError: unhashable type: list"
  | PyVal.dict _ => Except.error "TypeError: unhashable type: dict"
  | _ => Except.ok (strMem v names)

/-- Condition `lambda x: x is None or exists(x)` (utils.py line 407): `None`
passes without consulting the filesystem; a string asks `os.path.exists`
(the oracle `fsEx`); an int — and a bool, being a Python int — is treated by
`os.path.exists` as a file descriptor (the oracle `fdEx`; `exists` swallows
the `OSError`/`ValueError` a bad descriptor produces and yields a bool); a
list or dict raises a `TypeError` out of `os.stat`, which `exists` does not
catch. -/
def extLibCond (fsEx : String → Bool) (fdEx : Int → Bool) (v : PyVal) :
    Except String Bool :=
  match v with
  | PyVal.none => Except.ok true
  | PyVal.str s => Except.ok (fsEx s)
  | PyVal.bool b => Except.ok (fdEx (if b then 1 else 0))
  | PyVal.int n => Except.ok (fdEx n)
  | PyVal.list _ =>
      Except.error "TypeError: argument should be a str or an os.PathLike object"
  | PyVal.dict _ =>
      Except.error "TypeError: argument should be a str or an os.PathLike object"

/-- Values Python can hash in this value universe (list and dict are the
unhashable ones). -/
def hashable : PyVal → Bool
  | PyVal.list _ => false
  | PyVal.dict _ => false
  | _ => true

/-- Values `os.path.exists` accepts without raising: everything in this value
universe except a Python list or dict. -/
def pathSafe : PyVal → Bool
  | PyVal.list _ => false
  | PyVal.dict _ => false
  | _ => true

/-- The fully-resolved parameter set returned by `validated_parameters`. -/
structure Params where
  motes : PyVal
  debug : PyVal
  title : PyVal
  goal : PyVal
  notes : PyVal
  duration : PyVal
  n : PyVal
  repeatP : PyVal
  target : PyVal
  malicious_target : PyVal
  mtype : PyVal
  blocks : PyVal
  ext_lib : PyVal
  min_range : PyVal
  tx_range : PyVal
  int_range : PyVal
  area_side : PyVal
  max_range : PyVal

/-- Embedding of `validated_parameters` (utils.py lines 373-427).  The
configuration dictionary is threaded through the calls because each
`get_parameter` call mutates it (popping `silent`).  `platforms` stands for
`get_available_platforms()` and `blockNames` for the keys of
`get_building_blocks()` (both read the filesystem); `fsEx` stands for
`os.path.exists` on strings and `fdEx` for its file-descriptor behaviour on
ints. -/
def validated_parameters (platforms blockNames : List String)
    (fsEx : String → Bool) (fdEx : Int → Bool) (defaults : Dict) (cfg : Dict) :
    Except String Params := do
  let motes := (lookupD cfg "motes").getD PyVal.none
  let oDebug ← get_parameter defaults cfg "simulation" "debug"
      (Cond.scalar pyIsBool) PyVal.none
  let oTitle ← get_parameter defaults oDebug.cfg "simulation" "title"
      (Cond.scalar pyIsStr) PyVal.none
  let oGoal ← get_parameter defaults oTitle.cfg "simulation" "goal"
      (Cond.scalar pyIsStr) PyVal.none
  let oNotes ← get_parameter defaults oGoal.cfg "simulation" "notes"
      (Cond.scalar pyIsStr) PyVal.none
  let oDuration ← get_parameter defaults oNotes.cfg "simulation" "duration"
      (Cond.scalar (fun v => pyIsInt v && pyGT v (PyVal.int 0))) PyVal.none
  let oN ← get_parameter defaults oDuration.cfg "simulation" "number-motes"
      (Cond.scalar (fun v => pyIsInt v && pyGT v (PyVal.int 0))) PyVal.none
  let oRepeat ← get_parameter defaults oN.cfg "simulation" "repeat"
      (Cond.scalar (fun v => pyIsInt v && pyGT v (PyVal.int 0))) PyVal.none
  let oTarget ← get_parameter defaults oRepeat.cfg "simulation" "target"
      (Cond.scalar (fun v => strMem v platforms)) PyVal.none
  let oMal ← get_parameter defaults oTarget.cfg "malicious" "target"
      (Cond.scalar (fun v => strMem v platforms)) oTarget.value
  let oMtype ← get_parameter defaults oMal.cfg "malicious" "type"
      (Cond.scalar (fun v => match v with
                             | PyVal.str s => s == "root" || s == "sensor"
                             | _ => false)) PyVal.none
  let oBlocks ← get_parameter defaults oMtype.cfg "malicious" "building-blocks"
      (Cond.listModeE (hashableMem blockNames)) PyVal.none
  let oExt ← get_parameter defaults oBlocks.cfg "malicious" "external-library"
      (Cond.scalarE (extLibCond fsEx fdEx)) PyVal.none
  let oMin ← get_parameter defaults oExt.cfg "simulation" "minimum-distance-from-root"
      (Cond.scalar (fun v => pyIsNum v && pyGT v (PyVal.int 0))) PyVal.none
  let oTx ← get_parameter defaults oMin.cfg "simulation" "transmission-range"
      (Cond.scalar (fun v => pyIsNum v && pyGT v oMin.value)) PyVal.none
  let oInt ← get_parameter defaults oTx.cfg "simulation" "interference-range"
      (Cond.scalar (fun v => pyIsNum v && pyGE v oTx.value)) (pyDouble oTx.value)
  let oArea ← get_parameter defaults oInt.cfg "simulation" "area-square-side"
      (Cond.scalar (fun v => pyIsNum v && sqrtTwoLE oMin.value v)) PyVal.none
  let oMax ← get_parameter defaults oArea.cfg "simulation" "area-square-side"
      (Cond.scalar (fun v => pyIsNum v && pyGE v oMin.value)) PyVal.none
  pure { motes := motes
         debug := oDebug.value
         title := oTitle.value
         goal := oGoal.value
         notes := oNotes.value
         duration := oDuration.value
         n := oN.value
         repeatP := oRepeat.value
         target := oTarget.value
         malicious_target := oMal.value
         mtype := oMtype.value
         blocks := oBlocks.value
         ext_lib := oExt.value
         min_range := oMin.value
         tx_range := oTx.value
         int_range := oInt.value
         area_side := oArea.value
         max_range := oMax.value }


/-- Shape of a section value that the resolver can consume without an
`AttributeError`: absent, falsy, or an actual mapping. -/
def SecOK (d : Dict) (sec : String) : Prop :=
  match lookupD d sec with
  | some (PyVal.dict _) => True
  | some v => pyTruthy v = false
  | Option.none => True

/-- Well-formedness domain for the amended no-exception claim: both consulted
sections are mappings (or absent/falsy), the building-blocks lookup resolves
to a Python list of hashable elements, and the external-library lookup
resolves to a value `os.path.exists` accepts. -/
def configWellFormed (cfg : Dict) : Prop :=
  SecOK cfg "simulation" ∧ SecOK cfg "malicious" ∧
  (∃ l, parameterLookup DEFAULTS (eraseKey cfg "silent") "malicious" "building-blocks"
          PyVal.none = Except.ok (PyVal.list l) ∧ ∀ x ∈ l, hashable x = true) ∧
  (∃ pe, parameterLookup DEFAULTS (eraseKey cfg "silent") "malicious" "external-library"
          PyVal.none = Except.ok pe ∧ pathSafe pe = true)

/-- The configuration of the interference-range ordering scenario: minimum
distance explicitly 10, transmission range `t`, interference range `i`. -/
def c1cfg (i t : Int) : Dict :=
  [("simulation", PyVal.dict
     [("minimum-distance-from-root", PyVal.int 10),
      ("transmission-range", PyVal.int t),
      ("interference-range", PyVal.int i)])]


/-! ## Schema Matcher: data model -/

/-- A node of the file-structure schema dictionary handed to
`check_structure`: either a boolean leaf or a nested dictionary, mirroring
the Python `EXPERIMENT_STRUCTURE`-shaped dicts. -/
inductive SchemaVal where
  | bool (b : Bool) : SchemaVal
  | node (entries : List (String × SchemaVal)) : SchemaVal

/-- A schema dictionary: name or wildcard pattern to sub-schema. -/
abbrev SDict := List (String × SchemaVal)

/-- Lookup in a schema dictionary, first occurrence of the key. -/
def lookupS : SDict → String → Option SchemaVal
  | [], _ => Option.none
  | (k, v) :: rest, key => if k == key then some v else lookupS rest key

/-- In-place update `files[match] = v` of a schema dictionary: the first
entry holding the key is overwritten; an absent key is appended (Python dict
assignment). -/
def updateS : SDict → String → SchemaVal → SDict
  | [], key, v => [(key, v)]
  | (k, w) :: rest, key, v =>
      if k == key then (k, v) :: rest else (k, w) :: updateS rest key v

/-- Python truthiness of a schema value (booleans and dicts). -/
def truthyS : SchemaVal → Bool
  | SchemaVal.bool b => b
  | SchemaVal.node [] => false
  | SchemaVal.node (_ :: _) => true

/-- Verdict `all(files.values())` — the final conformance verdict of one level. -/
def allValues (d : SDict) : Bool :=
  d.all (fun p => truthyS p.2)

/-- Whether a schema value is a boolean leaf (`isinstance(f, bool)`). -/
def isBoolS : SchemaVal → Bool
  | SchemaVal.bool _ => true
  | SchemaVal.node _ => false

/-- An on-disk tree: a plain file or a directory with named entries.  Real
directories hold distinctly named entries, as all trees used here do. -/
inductive FSTree where
  | file : FSTree
  | dir (entries : List (String × FSTree)) : FSTree

/-- Lookup of a directory entry by name. -/
def lookupFS : List (String × FSTree) → String → Option FSTree
  | [], _ => Option.none
  | (k, v) :: rest, name => if k == name then some v else lookupFS rest name

/-- State update of a directory after a recursive call worked on the child
`name`: the existing entry is replaced, a newly created child is appended. -/
def setChild : List (String × FSTree) → String → FSTree → List (String × FSTree)
  | [], name, t => [(name, t)]
  | (k, v) :: rest, name, t =>
      if k == name then (k, t) :: rest else (k, v) :: setChild rest name t

/-- Modelled from the spec: `remove_files` lives in `lib/helpers.py`, which is
not among the provided sources; per the spec an unmatched entry is deleted
when `remove` is requested, so the named entry is dropped from the directory. -/
def removeEntry : List (String × FSTree) → String → List (String × FSTree)
  | [], _ => []
  | (k, v) :: rest, name =>
      if k == name then rest else (k, v) :: removeEntry rest name

/-- The stem of `os.path.splitext`: everything before the last dot, where the
leading run of dots never starts an extension (`splitext("report.txt") =
("report", ".txt")`, `splitext("report") = ("report", "")`,
`splitext(".bashrc") = (".bashrc", "")`). -/
def stemOf (s : String) : String :=
  let cs := s.toList
  let lead := (cs.takeWhile (fun c => c == '.')).length
  let rest := cs.drop lead
  if rest.contains '.' then
    let extLen := (rest.reverse.takeWhile (fun c => !(c == '.'))).length
    String.mk (cs.take (cs.length - extLen - 1))
  else s

/-- The wildcard candidate built at line 261: `'{}.*'.format(splitext(item)[0])`. -/
def wildcardOf (s : String) : String := stemOf s ++ ".*"

/-- Line 262: match an entry against the schema keys, exact name first, then
wildcard-on-stem; the matched key is returned with its current schema value. -/
def mtchOf (files : SDict) (item : String) : Option (String × SchemaVal) :=
  match lookupS files item with
  | some v => some (item, v)
  | Option.none =>
      match lookupS files (wildcardOf item) with
      | some v => some (wildcardOf item, v)
      | Option.none => Option.none

/-- Line 259: with `create`, the candidate list is seeded with every schema
key whose value is not a boolean leaf, in schema order. -/
def seedsOf (files : SDict) : List String :=
  (files.filter (fun p => !(isBoolS p.2))).map Prod.fst

/-- The per-item loop of `check_structure` (lines 260-268), threading the
directory entries (the filesystem state at `path`) and the mutated schema
dictionary.  `checkRec` is the recursive call on a child (`check_structure`
one fuel step down); its schema output is discarded because the recursion
receives `deepcopy(files[match])`, while its boolean result is stored back
into the schema slot and its tree output is the new state of the child. -/
def processItems
    (checkRec : Option FSTree → SDict → Except String (Option FSTree × SDict × Bool))
    (remove : Bool) :
    List String → List (String × FSTree) → SDict →
    Except String (List (String × FSTree) × SDict)
  | [], es, f => Except.ok (es, f)
  | item :: rest, es, f =>
      match mtchOf f item with
      | Option.none =>
          processItems checkRec remove rest (if remove then removeEntry es item else es) f
      | some (m, SchemaVal.bool _) =>
          processItems checkRec remove rest es (updateS f m (SchemaVal.bool true))
      | some (m, SchemaVal.node d) => do
          let r ← checkRec (lookupFS es m) d
          processItems checkRec remove rest
            (match r.1 with
             | some c => setChild es m c
             | Option.none => es)
            (updateS f m (SchemaVal.bool r.2.2))

/-- Embedding of `check_structure` (utils.py lines 242-269) over the
filesystem model.  The input is the state of the tree at `path` (`none` when
the path does not exist) and the schema dictionary; the output is the
post-call tree, the post-call (mutated) schema dictionary, and the boolean
verdict.  `fuel` only bounds the recursion depth — the Python recursion is
finite on finite schemas, and every theorem either supplies enough fuel or
holds for all fuel. -/
def check_structure (fuel : Nat) (t : Option FSTree) (files : SDict)
    (create remove : Bool) : Except String (Option FSTree × SDict × Bool) :=
  match fuel with
  | 0 => Except.error "RecursionError"
  | Nat.succ fu =>
      let t1 : Option FSTree := if create && t.isNone then some (FSTree.dir []) else t
      if truthyS ((lookupS files "*").getD (SchemaVal.bool false)) then
        Except.ok (t1, files, true)
      else
        match t1 with
        | Option.none => Except.error "FileNotFoundError"
        | some FSTree.file => Except.error "NotADirectoryError"
        | some (FSTree.dir es) => do
            let r ← processItems (fun c d => check_structure fu c d create remove) remove
                      ((if create then seedsOf files else []) ++ es.map Prod.fst) es files
            Except.ok (some (FSTree.dir r.1), r.2, allValues r.2)

/-- The schema of the idempotence scenario: one required subdirectory whose
only entry is a required (false-marked) file. -/
def c8schema : SDict := [("sub", SchemaVal.node [("a.txt", SchemaVal.bool false)])]

/-- Key-shape equality of two schema dictionaries: the same keys are present
(the values may differ).  The match decision of line 262 depends only on this
shape. -/
def keysEq (f g : SDict) : Prop :=
  ∀ k, (lookupS f k).isSome = (lookupS g k).isSome

/-- The child stored under `m` is an output of a recursive matcher call on the
schema `d`: re-running the matcher on it changes nothing. -/
def childOut (fu : Nat) (create remove : Bool)
    (es : List (String × FSTree)) (m : String) (d : SDict) : Prop :=
  ∃ c0 fd bd, check_structure fu c0 d create remove =
    Except.ok (lookupFS es m, fd, bd)


/-! ## Template Set Generator: data model -/

/-!
Structural equality of Python values as used by `==` / `in` in the
building-block bookkeeping.  Lists compare elementwise; the dictionary case
compares entry lists in order (the program only ever compares scalars and
lists of scalars here, where this coincides with Python).
-/
mutual
def pyEq : PyVal → PyVal → Bool
  | PyVal.none, PyVal.none => true
  | PyVal.bool a, PyVal.bool b => a == b
  | PyVal.int a, PyVal.int b => a == b
  | PyVal.str a, PyVal.str b => a == b
  | PyVal.list a, PyVal.list b => pyEqL a b
  | PyVal.dict a, PyVal.dict b => pyEqD a b
  | _, _ => false
def pyEqL : List PyVal → List PyVal → Bool
  | [], [] => true
  | a :: as, b :: bs => pyEq a b && pyEqL as bs
  | _, _ => false
def pyEqD : List (String × PyVal) → List (String × PyVal) → Bool
  | [], [] => true
  | (k, v) :: as, (k2, v2) :: bs => k == k2 && pyEq v v2 && pyEqD as bs
  | _, _ => false
end

/-- Python `str(v)` as used by `"#define {} {}".format(key, value)`; the
building-block constants are scalars, container reprs are abbreviated. -/
def pyFormat : PyVal → String
  | PyVal.none => "None"
  | PyVal.bool true => "True"
  | PyVal.bool false => "False"
  | PyVal.int n => toString n
  | PyVal.str s => s
  | PyVal.list _ => "<list>"
  | PyVal.dict _ => "<dict>"

/-- Membership `x in xs` for Python values. -/
def pyMem (x : PyVal) : List PyVal → Bool
  | [] => false
  | y :: ys => pyEq x y || pyMem x ys

/-- Projection `value[0]` of a replacement entry (`["source_line", "destination_line"]`). -/
def pyIndex0 : PyVal → Except String PyVal
  | PyVal.list (a :: _) => Except.ok a
  | PyVal.list [] => Except.error "IndexError"
  | _ => Except.error "TypeError: value is not subscriptable"

/-- Comprehension `[srcl for srcl, dstl in replacements.values()]`: each stored replacement
is unpacked as a two-element sequence. -/
def replacementFirsts : List (String × PyVal) → Except String (List PyVal)
  | [] => Except.ok []
  | (_, PyVal.list [a, _]) :: rest => do
      let r ← replacementFirsts rest
      Except.ok (a :: r)
  | _ :: _ => Except.error "ValueError: unpacking"

/-- Test `key.upper() == key and not (key.endswith(".c") or key.endswith(".h"))` —
the test deciding whether a building-block entry is a constant definition. -/
def isConstantKey (key : String) : Bool :=
  key.toUpper == key && !(key.endsWith ".c" || key.endsWith ".h")

/-- Inner loop of `get_constants_and_replacements` over the entries of one
building block, threading the `constants` and `replacements` dictionaries. -/
def gcrEntries : List (String × PyVal) → Dict → Dict →
    Except String (Dict × Dict)
  | [], constants, replacements => Except.ok (constants, replacements)
  | (key, value) :: rest, constants, replacements =>
      if isConstantKey key then
        if (lookupD constants key).isSome then
          gcrEntries rest constants replacements
        else
          gcrEntries rest (updateD constants key value) replacements
      else
        if (lookupD replacements key).isSome then do
          let v0 ← pyIndex0 value
          let firsts ← replacementFirsts replacements
          if pyMem v0 firsts then
            gcrEntries rest constants replacements
          else
            gcrEntries rest constants (updateD replacements key value)
        else
          gcrEntries rest constants (updateD replacements key value)

/-- Lookup in a name-to-dictionary table (templates, building blocks). -/
def lookupS2 : List (String × Dict) → String → Option Dict
  | [], _ => Option.none
  | (k, v) :: rest, key => if k == key then some v else lookupS2 rest key

/-- Outer loop of `get_constants_and_replacements` over the requested blocks;
`available_blocks[block]` raises for an unknown or non-string block name. -/
def gcrBlocks (availableBlocks : List (String × Dict)) :
    List PyVal → Dict → Dict → Except String (Dict × Dict)
  | [], constants, replacements => Except.ok (constants, replacements)
  | block :: rest, constants, replacements => do
      let entries ← (match block with
        | PyVal.str s =>
            match lookupS2 availableBlocks s with
            | some d => Except.ok d
            | Option.none => Except.error "KeyError"
        | _ => Except.error "KeyError")
      let cr ← gcrEntries entries constants replacements
      gcrBlocks availableBlocks rest cr.1 cr.2

/-- Embedding of `get_constants_and_replacements` (utils.py lines 44-68).
`availableBlocks` stands for `get_building_blocks()`; `blocks` must be the
(validated) list of block names. -/
def get_constants_and_replacements (availableBlocks : List (String × Dict))
    (blocks : PyVal) : Except String (Dict × Dict) :=
  match blocks with
  | PyVal.list l => gcrBlocks availableBlocks l [] []
  | _ => Except.error "TypeError: blocks is not iterable"

/-- Assignment `templates[name][field] = v` — `KeyError` when the template is missing;
the field itself is inserted or overwritten as Python dict assignment does. -/
def setTemplField : List (String × Dict) → String → String → PyVal →
    Except String (List (String × Dict))
  | [], _, _, _ => Except.error "KeyError"
  | (k, d) :: rest, name, field, v =>
      if k == name then Except.ok ((k, updateD d field v) :: rest)
      else do
        let r ← setTemplField rest name field v
        Except.ok ((k, d) :: r)

/-- Subscript `templates[name][field]` — `KeyError` when template or field is missing. -/
def getTemplField (ts : List (String × Dict)) (name field : String) :
    Except String PyVal :=
  match lookupS2 ts name with
  | some d =>
      match lookupD d field with
      | some v => Except.ok v
      | Option.none => Except.error "KeyError"
  | Option.none => Except.error "KeyError"

/-- Deletion `del templates[name]` — `KeyError` when the template is missing. -/
def delTempl : List (String × Dict) → String → Except String (List (String × Dict))
  | [], _ => Except.error "KeyError"
  | (k, d) :: rest, name =>
      if k == name then Except.ok rest
      else do
        let r ← delTempl rest name
        Except.ok ((k, d) :: r)

/-- The field lookup used to state properties of a rendered variant. -/
def lookupField (ts : List (String × Dict)) (name field : String) : Option PyVal :=
  match lookupS2 ts name with
  | some d => lookupD d field
  | Option.none => Option.none

/-- Python `str.capitalize()`: first character uppercased, the rest lowered. -/
def pyCapitalize (s : String) : String :=
  match s.toList with
  | [] => ""
  | c :: rest => String.mk (c.toUpper :: rest.map Char.toLower)

/-- Call `params["target"].capitalize()` — an `AttributeError` on a non-string. -/
def capPy : PyVal → Except String PyVal
  | PyVal.str s => Except.ok (PyVal.str (pyCapitalize s))
  | _ => Except.error "AttributeError: capitalize"

/-- Product `1000 * params["duration"]` on a validated integral duration. -/
def pyMul1000 : PyVal → Except String PyVal
  | v => match toI v with
         | some n => Except.ok (PyVal.int (1000 * n))
         | Option.none => Except.error "TypeError: unsupported operand"

/-- Quotient `timeout // 100` — Python floor division. -/
def pyFloorDiv100 : PyVal → Except String PyVal
  | v => match toI v with
         | some n => Except.ok (PyVal.int (Int.fdiv n 100))
         | Option.none => Except.error "TypeError: unsupported operand"

/-- Concatenation `params["title"] + suffix` — a `TypeError` on a non-string title. -/
def pyAddSuffix (v : PyVal) (suffix : String) : Except String PyVal :=
  match v with
  | PyVal.str s => Except.ok (PyVal.str (s ++ suffix))
  | _ => Except.error "TypeError: unsupported operand"

/-- Line 336: one step of the mote-type loop, binding the per-type target
platform (the `malicious` type binds the malicious target, the others the
primary target). -/
def assignMoteTypeTarget (target mal : PyVal) : PyVal → Except String PyVal
  | PyVal.dict d =>
      match lookupD d "name" with
      | some nv =>
          Except.ok (PyVal.dict (updateD d "target"
            (if pyEq nv (PyVal.str "malicious") then mal else target)))
      | Option.none => Except.error "KeyError"
  | _ => Except.error "TypeError"

/-- The mote-type loop over the `mote_types` list. -/
def assignTargets (target mal : PyVal) : List PyVal → Except String (List PyVal)
  | [] => Except.ok []
  | mt :: rest => do
      let mt2 ← assignMoteTypeTarget target mal mt
      let rest2 ← assignTargets target mal rest
      Except.ok (mt2 :: rest2)

/-- Insert-or-overwrite into the position index under dictionary-comprehension
semantics (`{m["id"]: (m["x"], m["y"]) for m in motes}` — a repeated
identifier keeps the last coordinates). -/
def upsertIdx : List (Int × (PyVal × PyVal)) → Int → (PyVal × PyVal) →
    List (Int × (PyVal × PyVal))
  | [], n, xy => [(n, xy)]
  | (k, v) :: rest, n, xy =>
      if k == n then (k, xy) :: rest else (k, v) :: upsertIdx rest n xy

/-- Insertion into a key-sorted index (`json.dump(..., sort_keys=True)`). -/
def insertIdx (p : Int × (PyVal × PyVal)) :
    List (Int × (PyVal × PyVal)) → List (Int × (PyVal × PyVal))
  | [] => [p]
  | q :: rest => if p.1 ≤ q.1 then p :: q :: rest else q :: insertIdx p rest

/-- Key-sorting of the position index. -/
def sortIdx (l : List (Int × (PyVal × PyVal))) : List (Int × (PyVal × PyVal)) :=
  l.foldr insertIdx []

/-- Projections `m["id"]`, `m["x"]`, `m["y"]` of a mote dictionary. -/
def getItemE : PyVal → String → Except String PyVal
  | PyVal.dict d, k =>
      match lookupD d k with
      | some v => Except.ok v
      | Option.none => Except.error "KeyError"
  | _, _ => Except.error "TypeError"

/-- Accumulation of the position-index entries over the mote list. -/
def idxGo : List PyVal → List (Int × (PyVal × PyVal)) →
    Except String (List (Int × (PyVal × PyVal)))
  | [], acc => Except.ok acc
  | m :: rest, acc => do
      let idv ← getItemE m "id"
      match idv with
      | PyVal.int n => do
          let xv ← getItemE m "x"
          let yv ← getItemE m "y"
          idxGo rest (upsertIdx acc n (xv, yv))
      | _ => Except.error "TypeError: unorderable id"

/-- The content of a `data/motes.json` index file: identifier to coordinate
pair for each mote, duplicate identifiers collapsed last-wins, keys sorted
(utils.py lines 340-341 and 353-354; mote identifiers are integers as
produced by the topology generator). -/
def buildIndex (ms : List PyVal) : Except String (List (Int × (PyVal × PyVal))) := do
  let entries ← idxGo ms []
  Except.ok (sortIdx entries)

/-- Modelled from the spec: the base template catalog `TEMPLATES` lives in
`lib/constants.py`, which is not among the provided sources.  The template
names and the fields of each are exactly those read and written by
`render_templates` in utils.py; the `mote_types` entries carry the three
per-role names used at line 336, with the `malicious` type last per the
spec's feature-entity description. -/
def TEMPLATES : List (String × Dict) :=
  [("motes/root.c", []),
   ("motes/sensor.c", []),
   ("motes/malicious.c", [("constants", PyVal.str "")]),
   ("motes/Makefile", [("target", PyVal.none)]),
   ("script.js", [("timeout", PyVal.none), ("sampling_period", PyVal.none)]),
   ("simulation.csc",
     [("title", PyVal.none), ("goal", PyVal.none), ("notes", PyVal.none),
      ("interference_range", PyVal.none), ("transmitting_range", PyVal.none),
      ("target", PyVal.none), ("target_capitalized", PyVal.none),
      ("malicious_target", PyVal.none), ("malicious_target_capitalized", PyVal.none),
      ("motes", PyVal.none),
      ("mote_types", PyVal.list
        [PyVal.dict [("name", PyVal.str "root"), ("target", PyVal.none)],
         PyVal.dict [("name", PyVal.str "sensor"), ("target", PyVal.none)],
         PyVal.dict [("name", PyVal.str "malicious"), ("target", PyVal.none)]])])]

/-- The outputs of one `render_templates` run: the replacement set it
returns, and for each variant the rendered (template name, bound fields)
pairs in catalog order together with the position-index file content. -/
structure RenderOut where
  replacements : Dict
  withFiles : List (String × Dict)
  withIndex : List (Int × (PyVal × PyVal))
  withoutFiles : List (String × Dict)
  withoutIndex : List (Int × (PyVal × PyVal))

/-- Embedding of `render_templates` (utils.py lines 301-355).  `catalog`
stands for the module-level `TEMPLATES` (deep-copied on entry, so the
argument is never mutated), `availableBlocks` for `get_building_blocks()`,
and `genMotes` for the mote list the external topology generator would
produce when `params["motes"]` is falsy.  Rendering a template is recorded
as the (name, kwargs) pair written into the variant subtree. -/
def render_templates (catalog : List (String × Dict))
    (availableBlocks : List (String × Dict)) (genMotes : List PyVal)
    (only_malicious : Bool) (p : Params) : Except String RenderOut := do
  let cr ← get_constants_and_replacements availableBlocks p.blocks
  let templates ← setTemplField catalog "motes/malicious.c" "constants"
      (PyVal.str (String.intercalate "\n"
        (cr.1.map (fun c => "#define " ++ c.1 ++ " " ++ pyFormat c.2))))
  if only_malicious then
    match lookupS2 templates "motes/malicious.c" with
    | some kwargs =>
        Except.ok ⟨cr.2, [("motes/malicious.c", kwargs)], [], [], []⟩
    | Option.none => Except.error "KeyError"
  else do
    let motes ← (if pyTruthy p.motes then
                   match p.motes with
                   | PyVal.list l => Except.ok l
                   | _ => Except.error "TypeError: motes is not a list"
                 else Except.ok genMotes)
    let templates ← setTemplField templates "motes/Makefile" "target" p.target
    let timeout ← pyMul1000 p.duration
    let templates ← setTemplField templates "script.js" "timeout" timeout
    let sampling ← pyFloorDiv100 timeout
    let templates ← setTemplField templates "script.js" "sampling_period" sampling
    let titleWith ← pyAddSuffix p.title " (with the malicious mote)"
    let templates ← setTemplField templates "simulation.csc" "title" titleWith
    let templates ← setTemplField templates "simulation.csc" "goal" p.goal
    let templates ← setTemplField templates "simulation.csc" "notes" p.notes
    let templates ← setTemplField templates "simulation.csc" "interference_range" p.int_range
    let templates ← setTemplField templates "simulation.csc" "transmitting_range" p.tx_range
    let templates ← setTemplField templates "simulation.csc" "target" p.target
    let capT ← capPy p.target
    let templates ← setTemplField templates "simulation.csc" "target_capitalized" capT
    let templates ← setTemplField templates "simulation.csc" "malicious_target" p.malicious_target
    let capM ← capPy p.malicious_target
    let templates ← setTemplField templates "simulation.csc" "malicious_target_capitalized" capM
    let templates ← setTemplField templates "simulation.csc" "motes" (PyVal.list motes)
    let mts ← getTemplField templates "simulation.csc" "mote_types"
    let mts2 ← (match mts with
                | PyVal.list l => assignTargets p.target p.malicious_target l
                | _ => Except.error "TypeError: mote_types is not iterable")
    let templates ← setTemplField templates "simulation.csc" "mote_types" (PyVal.list mts2)
    let withFiles := templates
    let withIndex ← buildIndex motes
    let templates ← delTempl templates "motes/Makefile"
    let templates ← delTempl templates "motes/root.c"
    let templates ← delTempl templates "motes/sensor.c"
    let templates ← delTempl templates "motes/malicious.c"
    let titleWithout ← pyAddSuffix p.title " (without the malicious mote)"
    let templates ← setTemplField templates "simulation.csc" "title" titleWithout
    let templates ← setTemplField templates "simulation.csc" "motes" (PyVal.list motes.dropLast)
    let mtsW ← getTemplField templates "simulation.csc" "mote_types"
    let mts3 ← (match mtsW with
                | PyVal.list [] => Except.error "IndexError"
                | PyVal.list l => Except.ok (PyVal.list l.dropLast)
                | _ => Except.error "TypeError: mote_types is not a list")
    let templates ← setTemplField templates "simulation.csc" "mote_types" mts3
    let withoutFiles := templates
    let withoutIndex ← buildIndex motes.dropLast
    Except.ok ⟨cr.2, withFiles, withIndex, withoutFiles, withoutIndex⟩

/-! ## Basic dictionary lemmas -/

theorem lookupD_cons (a : String) (v : PyVal) (rest : Dict) (key : String) :
    lookupD ((a, v) :: rest) key = if a == key then some v else lookupD rest key := rfl

theorem eraseKey_cons (a : String) (v : PyVal) (rest : Dict) (key : String) :
    eraseKey ((a, v) :: rest) key =
      if a == key then eraseKey rest key else (a, v) :: eraseKey rest key := by
  unfold eraseKey
  rw [List.filter_cons]
  by_cases h : a = key <;> simp [h]

theorem lookupD_eraseKey_self (d : Dict) (key : String) :
    lookupD (eraseKey d key) key = Option.none := by
  induction d with
  | nil => rfl
  | cons p rest ih =>
      obtain ⟨a, v⟩ := p
      rw [eraseKey_cons]
      by_cases h : a = key
      · simpa [h] using ih
      · simpa [lookupD_cons, h] using ih

theorem lookupD_eraseKey_ne (d : Dict) (key k : String) (hk : k ≠ key) :
    lookupD (eraseKey d key) k = lookupD d k := by
  induction d with
  | nil => rfl
  | cons p rest ih =>
      obtain ⟨a, v⟩ := p
      rw [eraseKey_cons]
      by_cases h : a = key
      · rw [if_pos (by simp [h]), lookupD_cons,
            if_neg (by simp only [beq_iff_eq]; exact fun he => hk (he.symm.trans h))]
        exact ih
      · rw [if_neg (by simp [h]), lookupD_cons, lookupD_cons]
        by_cases h2 : a = k <;> simp [h2, ih]

theorem eraseKey_idem (d : Dict) (key : String) :
    eraseKey (eraseKey d key) key = eraseKey d key := by
  unfold eraseKey
  rw [List.filter_filter]
  simp

/-! ## Reduction lemmas for the two modes of `get_parameter` -/

theorem get_parameter_scalarE (defaults cfg : Dict) (sec key : String)
    (f : PyVal → Except String Bool) (default : PyVal) :
    get_parameter defaults cfg sec key (Cond.scalarE f) default =
      match parameterLookup defaults (eraseKey cfg "silent") sec key default with
      | Except.error e => Except.error e
      | Except.ok p =>
          match f p with
          | Except.error e => Except.error e
          | Except.ok b =>
              if b then Except.ok ⟨eraseKey cfg "silent", p, 0⟩
              else
                match lookupD defaults key with
                | some dv =>
                    Except.ok ⟨eraseKey cfg "silent", dv,
                      if pyTruthy ((lookupD cfg "silent").getD PyVal.none) then 0 else 1⟩
                | Option.none => Except.error "KeyError" := rfl

theorem get_parameter_listModeE (defaults cfg : Dict) (sec key : String)
    (f : PyVal → Except String Bool) (default : PyVal) :
    get_parameter defaults cfg sec key (Cond.listModeE f) default =
      match parameterLookup defaults (eraseKey cfg "silent") sec key default with
      | Except.error e => Except.error e
      | Except.ok (PyVal.list l) =>
          match filterE f l with
          | Except.error e => Except.error e
          | Except.ok (fl, w) =>
              Except.ok ⟨eraseKey cfg "silent", PyVal.list fl,
                if pyTruthy ((lookupD cfg "silent").getD PyVal.none) then 0
                else w⟩
      | Except.ok _ => Except.error "TypeError: list object is not callable" := by
  unfold get_parameter
  cases parameterLookup defaults (eraseKey cfg "silent") sec key default with
  | error e => rfl
  | ok p => cases p <;> rfl

theorem exceptBind_ok {α β : Type} (a : α) (f : α → Except String β) :
    (Except.ok a >>= f : Except String β) = f a := rfl

theorem exceptBind_err {α β : Type} (e : String) (f : α → Except String β) :
    (Except.error e >>= f : Except String β) = Except.error e := rfl

theorem filterE_total (f : PyVal → Bool) (l : List PyVal) :
    filterE (fun v => Except.ok (f v)) l =
      Except.ok (l.filter f, (l.filter (fun x => !(f x))).length) := by
  induction l with
  | nil => rfl
  | cons x xs ih =>
      simp only [filterE, ih, exceptBind_ok, List.filter_cons]
      cases hfx : f x <;> simp [hfx] <;> rfl

theorem get_parameter_scalar (defaults cfg : Dict) (sec key : String)
    (f : PyVal → Bool) (default : PyVal) :
    get_parameter defaults cfg sec key (Cond.scalar f) default =
      match parameterLookup defaults (eraseKey cfg "silent") sec key default with
      | Except.error e => Except.error e
      | Except.ok p =>
          if f p then Except.ok ⟨eraseKey cfg "silent", p, 0⟩
          else
            match lookupD defaults key with
            | some dv =>
                Except.ok ⟨eraseKey cfg "silent", dv,
                  if pyTruthy ((lookupD cfg "silent").getD PyVal.none) then 0 else 1⟩
            | Option.none => Except.error "KeyError" := rfl

theorem get_parameter_listMode (defaults cfg : Dict) (sec key : String)
    (f : PyVal → Bool) (default : PyVal) :
    get_parameter defaults cfg sec key (Cond.listMode f) default =
      match parameterLookup defaults (eraseKey cfg "silent") sec key default with
      | Except.error e => Except.error e
      | Except.ok (PyVal.list l) =>
          Except.ok ⟨eraseKey cfg "silent", PyVal.list (l.filter f),
            if pyTruthy ((lookupD cfg "silent").getD PyVal.none) then 0
            else (l.filter (fun x => !(f x))).length⟩
      | Except.ok _ => Except.error "TypeError: list object is not callable" := by
  have hc : Cond.listMode f = Cond.listModeE (fun v => Except.ok (f v)) := rfl
  rw [hc, get_parameter_listModeE]
  cases parameterLookup defaults (eraseKey cfg "silent") sec key default with
  | error e => rfl
  | ok p =>
      cases p with
      | list l => simp only [filterE_total]
      | none => rfl
      | bool b => rfl
      | int n => rfl
      | str s => rfl
      | dict d => rfl


/-- Every successful `get_parameter` call returns the input dictionary with
`silent` popped, and emits nothing when the popped `silent` value was truthy. -/
theorem get_parameter_ok_shape (defaults cfg : Dict) (sec key : String)
    (cond : Cond) (default : PyVal) (o : GPOut)
    (hok : get_parameter defaults cfg sec key cond default = Except.ok o) :
    o.cfg = eraseKey cfg "silent"
    ∧ (pyTruthy ((lookupD cfg "silent").getD PyVal.none) = true → o.warnings = 0) := by
  cases cond with
  | scalarE f =>
      rw [get_parameter_scalarE] at hok
      cases hpl : parameterLookup defaults (eraseKey cfg "silent") sec key default with
      | error e => rw [hpl] at hok; cases hok
      | ok p =>
          simp only [hpl] at hok
          cases hb : f p with
          | error e => simp only [hb] at hok; cases hok
          | ok b =>
              simp only [hb] at hok
              cases b with
              | true =>
                  simp only [if_true] at hok
                  injection hok with h
                  subst h
                  exact ⟨rfl, fun _ => rfl⟩
              | false =>
                  rw [if_neg (by decide)] at hok
                  cases hdv : lookupD defaults key with
                  | none => rw [hdv] at hok; cases hok
                  | some dv =>
                      rw [hdv] at hok
                      injection hok with h
                      subst h
                      exact ⟨rfl, fun hs => by simp [hs]⟩
  | listModeE f =>
      rw [get_parameter_listModeE] at hok
      cases hpl : parameterLookup defaults (eraseKey cfg "silent") sec key default with
      | error e => rw [hpl] at hok; cases hok
      | ok p =>
          simp only [hpl] at hok
          cases p with
          | list l =>
              cases hfl : filterE f l with
              | error e => simp only [hfl] at hok; cases hok
              | ok r =>
                  obtain ⟨fl, w⟩ := r
                  simp only [hfl] at hok
                  injection hok with h
                  subst h
                  exact ⟨rfl, fun hs => by simp [hs]⟩
          | none => cases hok
          | bool b => cases hok
          | int n => cases hok
          | str s => cases hok
          | dict d => cases hok

/-! ## Claim theorems for the Parameter Resolver -/

/-- C4: in scalar mode, a looked-up value failing the predicate is replaced by
exactly the registered default `DEFAULTS[key]`, with exactly one diagnostic
when not silenced; consequently every value returned by a scalar-mode call
either satisfies the predicate or equals the registered default for its key. -/
theorem c4_scalar_default_substitution (defaults cfg : Dict) (sec key : String)
    (f : PyVal → Bool) (default p dv : PyVal)
    (hdv : lookupD defaults key = some dv) :
    (parameterLookup defaults (eraseKey cfg "silent") sec key default = Except.ok p →
      f p = false →
      get_parameter defaults cfg sec key (Cond.scalar f) default =
        Except.ok ⟨eraseKey cfg "silent", dv,
          if pyTruthy ((lookupD cfg "silent").getD PyVal.none) then 0 else 1⟩)
    ∧ (∀ o, get_parameter defaults cfg sec key (Cond.scalar f) default = Except.ok o →
        f o.value = true ∨ o.value = dv) := by
  constructor
  · intro hpl hf
    rw [get_parameter_scalar]
    simp only [hpl, hf, Bool.false_eq_true, if_false, hdv]
  · intro o hok
    rw [get_parameter_scalar] at hok
    cases hpl : parameterLookup defaults (eraseKey cfg "silent") sec key default with
    | error e => rw [hpl] at hok; cases hok
    | ok q =>
        simp only [hpl] at hok
        by_cases hfq : f q
        · rw [if_pos hfq] at hok
          injection hok with h
          subst h
          exact Or.inl hfq
        · rw [if_neg hfq, hdv] at hok
          injection hok with h
          subst h
          exact Or.inr rfl

/-- C4 witness: `duration = -5` fails the positivity predicate and resolves to
the registered default 300 with one diagnostic. -/
theorem c4_scalar_default_substitution_witness :
    get_parameter DEFAULTS [("simulation", PyVal.dict [("duration", PyVal.int (-5))])]
        "simulation" "duration"
        (Cond.scalar (fun v => pyIsInt v && pyGT v (PyVal.int 0))) PyVal.none =
      Except.ok ⟨[("simulation", PyVal.dict [("duration", PyVal.int (-5))])],
                 PyVal.int 300, 1⟩ :=
  (c4_scalar_default_substitution DEFAULTS
      [("simulation", PyVal.dict [("duration", PyVal.int (-5))])]
      "simulation" "duration" (fun v => pyIsInt v && pyGT v (PyVal.int 0))
      PyVal.none (PyVal.int (-5)) (PyVal.int 300) rfl).1 rfl rfl

/-- C5: in list mode over a looked-up list, the result is the order-preserving
filter of the input (a sublist containing exactly the elements passing the
element test), no default is substituted even when empty, and one diagnostic
is emitted per dropped element when not silenced. -/
theorem c5_list_filtering (defaults cfg : Dict) (sec key : String)
    (f : PyVal → Bool) (default : PyVal) (l : List PyVal)
    (hpl : parameterLookup defaults (eraseKey cfg "silent") sec key default =
      Except.ok (PyVal.list l)) :
    get_parameter defaults cfg sec key (Cond.listMode f) default =
      Except.ok ⟨eraseKey cfg "silent", PyVal.list (l.filter f),
        if pyTruthy ((lookupD cfg "silent").getD PyVal.none) then 0
        else (l.filter (fun x => !(f x))).length⟩
    ∧ (l.filter f).Sublist l
    ∧ (∀ x, x ∈ l.filter f ↔ x ∈ l ∧ f x = true) := by
  refine ⟨?_, List.filter_sublist l, fun x => List.mem_filter⟩
  rw [get_parameter_listMode, hpl]

/-- C5 witness: filtering `[1, None, 2]` by "is a number" keeps `[1, 2]` in
order and logs one warning for the dropped element. -/
theorem c5_list_filtering_witness :
    get_parameter DEFAULTS
        [("malicious", PyVal.dict [("building-blocks",
            PyVal.list [PyVal.int 1, PyVal.none, PyVal.int 2])])]
        "malicious" "building-blocks" (Cond.listMode pyIsInt) PyVal.none =
      Except.ok ⟨[("malicious", PyVal.dict [("building-blocks",
            PyVal.list [PyVal.int 1, PyVal.none, PyVal.int 2])])],
          PyVal.list [PyVal.int 1, PyVal.int 2], 1⟩
    ∧ (([PyVal.int 1, PyVal.none, PyVal.int 2].filter pyIsInt)).Sublist
        [PyVal.int 1, PyVal.none, PyVal.int 2] :=
  ⟨((c5_list_filtering DEFAULTS
      [("malicious", PyVal.dict [("building-blocks",
          PyVal.list [PyVal.int 1, PyVal.none, PyVal.int 2])])]
      "malicious" "building-blocks" pyIsInt PyVal.none
      [PyVal.int 1, PyVal.none, PyVal.int 2] rfl).1),
   ((c5_list_filtering DEFAULTS
      [("malicious", PyVal.dict [("building-blocks",
          PyVal.list [PyVal.int 1, PyVal.none, PyVal.int 2])])]
      "malicious" "building-blocks" pyIsInt PyVal.none
      [PyVal.int 1, PyVal.none, PyVal.int 2] rfl).2.1)⟩

/-- C9: every successful `get_parameter` call pops the reserved `silent` key
(the returned dictionary state no longer holds it), leaves every other entry
unchanged, and emits no diagnostic when the popped value was truthy. -/
theorem c9_silent_popped_once (defaults cfg : Dict) (sec key : String)
    (cond : Cond) (default : PyVal) (o : GPOut)
    (hok : get_parameter defaults cfg sec key cond default = Except.ok o) :
    lookupD o.cfg "silent" = Option.none
    ∧ (∀ k, k ≠ "silent" → lookupD o.cfg k = lookupD cfg k)
    ∧ (pyTruthy ((lookupD cfg "silent").getD PyVal.none) = true → o.warnings = 0) := by
  obtain ⟨hcfg, hsil⟩ := get_parameter_ok_shape defaults cfg sec key cond default o hok
  refine ⟨?_, ?_, hsil⟩
  · rw [hcfg]; exact lookupD_eraseKey_self cfg "silent"
  · intro k hk
    rw [hcfg]
    exact lookupD_eraseKey_ne cfg "silent" k hk

/-- C9 witness: with `silent = True` set, a failing scalar parameter is
defaulted with zero diagnostics and the `silent` key is consumed while the
other entry survives. -/
theorem c9_silent_popped_once_witness :
    lookupD (GPOut.mk [("simulation", PyVal.dict [("duration", PyVal.int (-5))])]
        (PyVal.int 300) 0).cfg "silent" = Option.none
    ∧ lookupD (GPOut.mk [("simulation", PyVal.dict [("duration", PyVal.int (-5))])]
        (PyVal.int 300) 0).cfg "simulation" =
      lookupD [("silent", PyVal.bool true),
               ("simulation", PyVal.dict [("duration", PyVal.int (-5))])] "simulation"
    ∧ (GPOut.mk [("simulation", PyVal.dict [("duration", PyVal.int (-5))])]
        (PyVal.int 300) 0).warnings = 0 := by
  have h := c9_silent_popped_once DEFAULTS
      [("silent", PyVal.bool true),
       ("simulation", PyVal.dict [("duration", PyVal.int (-5))])]
      "simulation" "duration"
      (Cond.scalar (fun v => pyIsInt v && pyGT v (PyVal.int 0))) PyVal.none
      (GPOut.mk [("simulation", PyVal.dict [("duration", PyVal.int (-5))])]
        (PyVal.int 300) 0) rfl
  exact ⟨h.1, h.2.1 "simulation" (by decide), h.2.2 rfl⟩

/-! ## Helper lemmas for chaining `validated_parameters` -/

theorem GPOut_cfg_mk (c : Dict) (v : PyVal) (w : Nat) : (GPOut.mk c v w).cfg = c := rfl

theorem GPOut_value_mk (c : Dict) (v : PyVal) (w : Nat) : (GPOut.mk c v w).value = v := rfl

theorem SecOK_of_eq (d1 d2 : Dict) (sec : String)
    (h : lookupD d1 sec = lookupD d2 sec) (h2 : SecOK d2 sec) : SecOK d1 sec := by
  unfold SecOK at *
  rw [h]
  exact h2

theorem parameterLookup_ok (defaults d : Dict) (sec key : String) (default : PyVal)
    (hsec : SecOK d sec) :
    ∃ v, parameterLookup defaults d sec key default = Except.ok v := by
  unfold parameterLookup SecOK at *
  cases hv : lookupD d sec with
  | none => exact ⟨_, rfl⟩
  | some v =>
      rw [hv] at hsec
      cases v with
      | dict dd => by_cases ht : pyTruthy (PyVal.dict dd) <;> simp [ht]
      | none => simp [pyTruthy]
      | bool b => simp only [Option.getD]; rw [hsec]; exact ⟨_, rfl⟩
      | int n => simp only [Option.getD]; rw [hsec]; exact ⟨_, rfl⟩
      | str s => simp only [Option.getD]; rw [hsec]; exact ⟨_, rfl⟩
      | list l => simp only [Option.getD]; rw [hsec]; exact ⟨_, rfl⟩

theorem gp_scalar_ok (defaults cfg : Dict) (sec key : String) (f : PyVal → Bool)
    (default : PyVal)
    (hsec : SecOK (eraseKey cfg "silent") sec)
    (hdv : (lookupD defaults key).isSome = true) :
    ∃ o, get_parameter defaults cfg sec key (Cond.scalar f) default = Except.ok o ∧
         o.cfg = eraseKey cfg "silent" := by
  rw [get_parameter_scalar]
  obtain ⟨p, hpl⟩ := parameterLookup_ok defaults (eraseKey cfg "silent") sec key default hsec
  simp only [hpl]
  by_cases hf : f p
  · rw [if_pos hf]; exact ⟨_, rfl, rfl⟩
  · rw [if_neg hf]
    cases hdvv : lookupD defaults key with
    | none => rw [hdvv] at hdv; cases hdv
    | some dv => exact ⟨_, rfl, rfl⟩

theorem gp_scalar_ok2 (defaults cfg : Dict) (sec key : String) (f : PyVal → Bool)
    (default : PyVal)
    (hsec : SecOK (eraseKey cfg "silent") sec)
    (hdv : (lookupD defaults key).isSome = true) :
    ∃ v w, get_parameter defaults cfg sec key (Cond.scalar f) default =
      Except.ok (GPOut.mk (eraseKey cfg "silent") v w) := by
  rw [get_parameter_scalar]
  obtain ⟨p, hpl⟩ := parameterLookup_ok defaults (eraseKey cfg "silent") sec key default hsec
  simp only [hpl]
  by_cases hf : f p
  · rw [if_pos hf]; exact ⟨_, _, rfl⟩
  · rw [if_neg hf]
    cases hdvv : lookupD defaults key with
    | none => rw [hdvv] at hdv; cases hdv
    | some dv => exact ⟨_, _, rfl⟩

theorem bind_ok_of {α β : Type} (x : Except String α) (k : α → Except String β) (a : α)
    (hx : x = Except.ok a)
    (hk : ∃ b, k a = Except.ok b) :
    ∃ b, (x >>= k) = Except.ok b := by
  subst hx
  exact hk

theorem filterE_ok_of_hashable (names : List String) (l : List PyVal)
    (h : ∀ x ∈ l, hashable x = true) :
    ∃ r, filterE (hashableMem names) l = Except.ok r := by
  induction l with
  | nil => exact ⟨_, rfl⟩
  | cons x xs ih =>
      obtain ⟨⟨rl, rn⟩, hr⟩ := ih (fun y hy => h y (List.mem_cons_of_mem x hy))
      have hx := h x (List.mem_cons_self x xs)
      have hmx : ∃ b, hashableMem names x = Except.ok b := by
        cases x with
        | list l2 => simp [hashable] at hx
        | dict d2 => simp [hashable] at hx
        | none => exact ⟨_, rfl⟩
        | bool b => exact ⟨_, rfl⟩
        | int n => exact ⟨_, rfl⟩
        | str s => exact ⟨_, rfl⟩
      obtain ⟨b, hb⟩ := hmx
      simp only [filterE, hb, hr, exceptBind_ok]
      exact ⟨_, rfl⟩

theorem gp_listModeE_ok (defaults cfg : Dict) (sec key : String)
    (f : PyVal → Except String Bool) (default : PyVal) (l : List PyVal)
    (hpl : parameterLookup defaults (eraseKey cfg "silent") sec key default =
      Except.ok (PyVal.list l))
    (hfl : ∃ r, filterE f l = Except.ok r) :
    ∃ v w, get_parameter defaults cfg sec key (Cond.listModeE f) default =
      Except.ok (GPOut.mk (eraseKey cfg "silent") v w) := by
  obtain ⟨⟨fl, wn⟩, hr⟩ := hfl
  rw [get_parameter_listModeE]
  simp only [hpl, hr]
  exact ⟨_, _, rfl⟩

theorem gp_scalarE_ok (defaults cfg : Dict) (sec key : String)
    (f : PyVal → Except String Bool) (default : PyVal)
    (hsec : SecOK (eraseKey cfg "silent") sec)
    (hdv : (lookupD defaults key).isSome = true)
    (hf : ∀ p, parameterLookup defaults (eraseKey cfg "silent") sec key default =
      Except.ok p → ∃ b, f p = Except.ok b) :
    ∃ v w, get_parameter defaults cfg sec key (Cond.scalarE f) default =
      Except.ok (GPOut.mk (eraseKey cfg "silent") v w) := by
  obtain ⟨p, hpl⟩ := parameterLookup_ok defaults (eraseKey cfg "silent") sec key default hsec
  obtain ⟨b, hb⟩ := hf p hpl
  rw [get_parameter_scalarE]
  simp only [hpl, hb]
  cases b with
  | true => simp only [if_true]; exact ⟨_, _, rfl⟩
  | false =>
      rw [if_neg (by decide)]
      cases hdvv : lookupD defaults key with
      | none => rw [hdvv] at hdv; cases hdv
      | some dv => exact ⟨_, _, rfl⟩

/-- C3: amended no-exception property.  For every configuration whose
`simulation` and `malicious` sections are mappings (or absent/falsy), whose
building-blocks entry resolves to a list of hashable elements, and whose
external-library entry resolves to a value `os.path.exists` accepts, the full
parameter-set build returns without raising; the original unconditional claim
fails (see the counterexample): a truthy non-list building-blocks value makes
the resolver call a Python list object, a `TypeError` — and outside the
well-formedness domain an unhashable building-block element or a list-valued
external-library entry also raises a `TypeError`. -/
theorem c3_no_exception_amended (platforms blockNames : List String)
    (fsEx : String → Bool) (fdEx : Int → Bool)
    (cfg : Dict) (hwf : configWellFormed cfg) :
    ∃ p, validated_parameters platforms blockNames fsEx fdEx DEFAULTS cfg =
      Except.ok p := by
  obtain ⟨hsim, hmal, ⟨l, hblk, hhash⟩, ⟨pe, hpe, hsafe⟩⟩ := hwf
  have hsimE : SecOK (eraseKey cfg "silent") "simulation" :=
    SecOK_of_eq _ cfg _ (lookupD_eraseKey_ne cfg "silent" "simulation" (by decide)) hsim
  have hmalE : SecOK (eraseKey cfg "silent") "malicious" :=
    SecOK_of_eq _ cfg _ (lookupD_eraseKey_ne cfg "silent" "malicious" (by decide)) hmal
  have hsimE2 : SecOK (eraseKey (eraseKey cfg "silent") "silent") "simulation" := by
    rw [eraseKey_idem]; exact hsimE
  have hmalE2 : SecOK (eraseKey (eraseKey cfg "silent") "silent") "malicious" := by
    rw [eraseKey_idem]; exact hmalE
  obtain ⟨v1, w1, h1⟩ := gp_scalar_ok2 DEFAULTS cfg "simulation" "debug" pyIsBool PyVal.none hsimE rfl
  obtain ⟨v2, w2, h2⟩ := gp_scalar_ok2 DEFAULTS (eraseKey cfg "silent") "simulation" "title" pyIsStr PyVal.none hsimE2 rfl
  rw [eraseKey_idem] at h2
  obtain ⟨v3, w3, h3⟩ := gp_scalar_ok2 DEFAULTS (eraseKey cfg "silent") "simulation" "goal" pyIsStr PyVal.none hsimE2 rfl
  rw [eraseKey_idem] at h3
  obtain ⟨v4, w4, h4⟩ := gp_scalar_ok2 DEFAULTS (eraseKey cfg "silent") "simulation" "notes" pyIsStr PyVal.none hsimE2 rfl
  rw [eraseKey_idem] at h4
  obtain ⟨v5, w5, h5⟩ := gp_scalar_ok2 DEFAULTS (eraseKey cfg "silent") "simulation" "duration" (fun v => pyIsInt v && pyGT v (PyVal.int 0)) PyVal.none hsimE2 rfl
  rw [eraseKey_idem] at h5
  obtain ⟨v6, w6, h6⟩ := gp_scalar_ok2 DEFAULTS (eraseKey cfg "silent") "simulation" "number-motes" (fun v => pyIsInt v && pyGT v (PyVal.int 0)) PyVal.none hsimE2 rfl
  rw [eraseKey_idem] at h6
  obtain ⟨v7, w7, h7⟩ := gp_scalar_ok2 DEFAULTS (eraseKey cfg "silent") "simulation" "repeat" (fun v => pyIsInt v && pyGT v (PyVal.int 0)) PyVal.none hsimE2 rfl
  rw [eraseKey_idem] at h7
  obtain ⟨v8, w8, h8⟩ := gp_scalar_ok2 DEFAULTS (eraseKey cfg "silent") "simulation" "target" (fun v => strMem v platforms) PyVal.none hsimE2 rfl
  rw [eraseKey_idem] at h8
  obtain ⟨v9, w9, h9⟩ := gp_scalar_ok2 DEFAULTS (eraseKey cfg "silent") "malicious" "target" (fun v => strMem v platforms) v8 hmalE2 rfl
  rw [eraseKey_idem] at h9
  obtain ⟨v10, w10, h10⟩ := gp_scalar_ok2 DEFAULTS (eraseKey cfg "silent") "malicious" "type" (fun v => match v with | PyVal.str s => s == "root" || s == "sensor" | _ => false) PyVal.none hmalE2 rfl
  rw [eraseKey_idem] at h10
  have hpl11 : parameterLookup DEFAULTS (eraseKey (eraseKey cfg "silent") "silent")
      "malicious" "building-blocks" PyVal.none = Except.ok (PyVal.list l) := by
    rw [eraseKey_idem]; exact hblk
  obtain ⟨v11, w11, h11⟩ := gp_listModeE_ok DEFAULTS (eraseKey cfg "silent") "malicious"
      "building-blocks" (hashableMem blockNames) PyVal.none l hpl11
      (filterE_ok_of_hashable blockNames l hhash)
  rw [eraseKey_idem] at h11
  have hf12 : ∀ q, parameterLookup DEFAULTS (eraseKey (eraseKey cfg "silent") "silent")
      "malicious" "external-library" PyVal.none = Except.ok q →
      ∃ b, extLibCond fsEx fdEx q = Except.ok b := by
    rw [eraseKey_idem]
    intro q hq
    rw [hpe] at hq
    injection hq with hq
    subst hq
    cases pe with
    | list l2 => simp [pathSafe] at hsafe
    | dict d2 => simp [pathSafe] at hsafe
    | none => exact ⟨_, rfl⟩
    | bool b => exact ⟨_, rfl⟩
    | int n => exact ⟨_, rfl⟩
    | str s => exact ⟨_, rfl⟩
  obtain ⟨v12, w12, h12⟩ := gp_scalarE_ok DEFAULTS (eraseKey cfg "silent") "malicious"
      "external-library" (extLibCond fsEx fdEx) PyVal.none hmalE2 rfl hf12
  rw [eraseKey_idem] at h12
  obtain ⟨v13, w13, h13⟩ := gp_scalar_ok2 DEFAULTS (eraseKey cfg "silent") "simulation" "minimum-distance-from-root" (fun v => pyIsNum v && pyGT v (PyVal.int 0)) PyVal.none hsimE2 rfl
  rw [eraseKey_idem] at h13
  obtain ⟨v14, w14, h14⟩ := gp_scalar_ok2 DEFAULTS (eraseKey cfg "silent") "simulation" "transmission-range" (fun v => pyIsNum v && pyGT v v13) PyVal.none hsimE2 rfl
  rw [eraseKey_idem] at h14
  obtain ⟨v15, w15, h15⟩ := gp_scalar_ok2 DEFAULTS (eraseKey cfg "silent") "simulation" "interference-range" (fun v => pyIsNum v && pyGE v v14) (pyDouble v14) hsimE2 rfl
  rw [eraseKey_idem] at h15
  obtain ⟨v16, w16, h16⟩ := gp_scalar_ok2 DEFAULTS (eraseKey cfg "silent") "simulation" "area-square-side" (fun v => pyIsNum v && sqrtTwoLE v13 v) PyVal.none hsimE2 rfl
  rw [eraseKey_idem] at h16
  obtain ⟨v17, w17, h17⟩ := gp_scalar_ok2 DEFAULTS (eraseKey cfg "silent") "simulation" "area-square-side" (fun v => pyIsNum v && pyGE v v13) PyVal.none hsimE2 rfl
  rw [eraseKey_idem] at h17
  unfold validated_parameters
  refine bind_ok_of _ _ _ h1 ?_
  refine bind_ok_of _ _ _ h2 ?_
  refine bind_ok_of _ _ _ h3 ?_
  refine bind_ok_of _ _ _ h4 ?_
  refine bind_ok_of _ _ _ h5 ?_
  refine bind_ok_of _ _ _ h6 ?_
  refine bind_ok_of _ _ _ h7 ?_
  refine bind_ok_of _ _ _ h8 ?_
  refine bind_ok_of _ _ _ h9 ?_
  refine bind_ok_of _ _ _ h10 ?_
  refine bind_ok_of _ _ _ h11 ?_
  refine bind_ok_of _ _ _ h12 ?_
  refine bind_ok_of _ _ _ h13 ?_
  refine bind_ok_of _ _ _ h14 ?_
  refine bind_ok_of _ _ _ h15 ?_
  refine bind_ok_of _ _ _ h16 ?_
  refine bind_ok_of _ _ _ h17 ?_
  exact ⟨_, rfl⟩

/-- C3 witness: the empty configuration is well-formed and the build returns
a parameter set. -/
theorem c3_no_exception_amended_witness :
    ∃ p, validated_parameters ["z1"] ["hello-flood"] (fun _ => false) (fun _ => false)
      DEFAULTS [] = Except.ok p :=
  c3_no_exception_amended ["z1"] ["hello-flood"] (fun _ => false) (fun _ => false) []
    ⟨trivial, trivial, ⟨[], rfl, fun x hx => absurd hx (List.not_mem_nil x)⟩,
     ⟨PyVal.none, rfl, rfl⟩⟩

/-- C3 counterexample: a configuration whose building-blocks entry is the
string "x" (truthy, not a list) makes `validated_parameters` raise — the code
applies the Python list `condition` to the value, a `TypeError` — refuting the
claim that no input configuration ever raises. -/
theorem c3_counterexample :
    validated_parameters ["z1"] ["hello-flood"] (fun _ => false) (fun _ => false) DEFAULTS
      [("malicious", PyVal.dict [("building-blocks", PyVal.str "x")])] =
    Except.error "TypeError: list object is not callable" := rfl

/-- C1: amended ordering-dependency claim, stated on the exact
interference-range call issued by `validated_parameters` (utils.py lines
415-418), with `tx` the already-resolved transmission range.  An explicit
interference value failing the `>= tx` test is replaced by the registered
default `DEFAULTS["interference-range"]` (100 in the modelled registry) — not
by the raw input and not by `2 × tx`: the `default=2*tx_range` argument only
applies when the raw value is unset or falsy and the registry lacks the key. -/
theorem c1_interference_default_amended (cfg : Dict) (tx p : PyVal)
    (hpl : parameterLookup DEFAULTS (eraseKey cfg "silent") "simulation"
      "interference-range" (pyDouble tx) = Except.ok p)
    (hfail : (pyIsNum p && pyGE p tx) = false) :
    get_parameter DEFAULTS cfg "simulation" "interference-range"
      (Cond.scalar (fun v => pyIsNum v && pyGE v tx)) (pyDouble tx) =
    Except.ok ⟨eraseKey cfg "silent", PyVal.int 100,
      if pyTruthy ((lookupD cfg "silent").getD PyVal.none) then 0 else 1⟩ := by
  rw [get_parameter_scalar]
  simp only [hpl, hfail, Bool.false_eq_true, if_false]
  rfl

/-- C1 witness for the amended theorem: in the concrete scenario (minimum
distance 10, transmission range 30, raw interference range 15 < 30) the call
resolves to the registered default 100, which differs from 2 × 30. -/
theorem c1_interference_default_amended_witness :
    get_parameter DEFAULTS (c1cfg 15 30) "simulation" "interference-range"
      (Cond.scalar (fun v => pyIsNum v && pyGE v (PyVal.int 30)))
      (pyDouble (PyVal.int 30)) =
    Except.ok ⟨c1cfg 15 30, PyVal.int 100, 1⟩ :=
  c1_interference_default_amended (c1cfg 15 30) (PyVal.int 30) (PyVal.int 15) rfl rfl

/-- C1 counterexample: the full parameter-set build on the configuration with
minimum distance 10, explicit transmission range 30 and explicit interference
range 15 resolves the interference range to 100 (the registered default),
which is not `2 × transmission_range = 60`, refuting the claim as stated. -/
theorem c1_counterexample :
    ∃ p, validated_parameters ["z1"] ["hello-flood"] (fun _ => false) (fun _ => false)
           DEFAULTS (c1cfg 15 30) =
           Except.ok p
         ∧ p.min_range = PyVal.int 10
         ∧ p.tx_range = PyVal.int 30
         ∧ p.int_range = PyVal.int 100
         ∧ ¬ p.int_range = pyDouble p.tx_range := by
  refine ⟨_, rfl, rfl, rfl, rfl, ?_⟩
  intro h
  simp only [pyDouble, toI] at h
  cases h

/-! ## Schema dictionary lemmas -/

theorem lookupS_updateS_self (f : SDict) (m : String) (v : SchemaVal) :
    lookupS (updateS f m v) m = some v := by
  induction f with
  | nil => simp [updateS, lookupS]
  | cons p rest ih =>
      obtain ⟨a, w⟩ := p
      unfold updateS
      by_cases h : a = m
      · simp [h, lookupS]
      · rw [if_neg (by simp [h])]
        unfold lookupS
        rw [if_neg (by simp [h])]
        exact ih

theorem lookupS_updateS_ne (f : SDict) (m k : String) (v : SchemaVal) (hk : k ≠ m) :
    lookupS (updateS f m v) k = lookupS f k := by
  induction f with
  | nil =>
      unfold updateS lookupS
      rw [if_neg (by simp only [beq_iff_eq]; exact fun he => hk he.symm)]
      rfl
  | cons p rest ih =>
      obtain ⟨a, w⟩ := p
      unfold updateS
      by_cases h : a = m
      · rw [if_pos (by simp [h])]
        unfold lookupS
        rw [if_neg (by simp only [beq_iff_eq]; exact fun he => hk (he.symm.trans h)),
            if_neg (by simp only [beq_iff_eq]; exact fun he => hk (he.symm.trans h))]
      · rw [if_neg (by simp [h])]
        unfold lookupS
        by_cases h2 : a = k
        · simp [h2]
        · rw [if_neg (by simp [h2]), if_neg (by simp [h2])]
          exact ih

theorem lookupS_mem (f : SDict) (k : String) (v : SchemaVal)
    (h : lookupS f k = some v) : (k, v) ∈ f := by
  induction f with
  | nil => cases h
  | cons p rest ih =>
      obtain ⟨a, w⟩ := p
      unfold lookupS at h
      by_cases ha : a = k
      · rw [if_pos (by simp [ha])] at h
        injection h with h
        subst h
        subst ha
        exact List.mem_cons_self _ _
      · rw [if_neg (by simp [ha])] at h
        exact List.mem_cons_of_mem _ (ih h)

theorem mtchOf_eq (f : SDict) (item m : String) (v : SchemaVal)
    (h : mtchOf f item = some (m, v)) :
    lookupS f m = some v ∧ (m = item ∨ m = wildcardOf item) := by
  unfold mtchOf at h
  cases h1 : lookupS f item with
  | some w =>
      rw [h1] at h
      injection h with h
      injection h with hm hv
      subst hm
      subst hv
      exact ⟨h1, Or.inl rfl⟩
  | none =>
      rw [h1] at h
      cases h2 : lookupS f (wildcardOf item) with
      | some w =>
          rw [h2] at h
          injection h with h
          injection h with hm hv
          subst hm
          subst hv
          exact ⟨h2, Or.inr rfl⟩
      | none => rw [h2] at h; cases h

theorem allValues_false_of (f : SDict) (k : String)
    (h : lookupS f k = some (SchemaVal.bool false)) : allValues f = false := by
  have hm := lookupS_mem f k _ h
  unfold allValues
  rw [List.all_eq_false]
  exact ⟨(k, SchemaVal.bool false), hm, by simp [truthyS]⟩

/-! ## Loop invariants of the Schema Matcher -/

theorem processItems_files_shape
    (checkRec : Option FSTree → SDict → Except String (Option FSTree × SDict × Bool))
    (remove : Bool) :
    ∀ (items : List String) (es : List (String × FSTree)) (f : SDict)
      (out : List (String × FSTree) × SDict),
      processItems checkRec remove items es f = Except.ok out →
      ∀ k, lookupS out.2 k = lookupS f k ∨ ∃ b, lookupS out.2 k = some (SchemaVal.bool b) := by
  intro items
  induction items with
  | nil =>
      intro es f out h k
      unfold processItems at h
      injection h with h
      subst h
      exact Or.inl rfl
  | cons item rest ih =>
      intro es f out h k
      unfold processItems at h
      cases hm : mtchOf f item with
      | none =>
          rw [hm] at h
          exact ih _ _ _ h k
      | some mv =>
          obtain ⟨m, v⟩ := mv
          rw [hm] at h
          cases v with
          | bool b =>
              have hshape := ih _ _ _ h k
              by_cases hk : k = m
              · subst hk
                cases hshape with
                | inl h2 => exact Or.inr ⟨true, h2.trans (lookupS_updateS_self f k (SchemaVal.bool true))⟩
                | inr h2 => exact Or.inr h2
              · cases hshape with
                | inl h2 => exact Or.inl (h2.trans (lookupS_updateS_ne f m k _ hk))
                | inr h2 => exact Or.inr h2
          | node d =>
              cases hr : checkRec (lookupFS es m) d with
              | error e =>
                  simp only [hr, exceptBind_err] at h
                  exact Except.noConfusion h
              | ok r =>
                  simp only [hr, exceptBind_ok] at h
                  have hshape := ih _ _ _ h k
                  by_cases hk : k = m
                  · subst hk
                    cases hshape with
                    | inl h2 =>
                        exact Or.inr ⟨r.2.2, h2.trans (lookupS_updateS_self f k (SchemaVal.bool r.2.2))⟩
                    | inr h2 => exact Or.inr h2
                  · cases hshape with
                    | inl h2 => exact Or.inl (h2.trans (lookupS_updateS_ne f m k _ hk))
                    | inr h2 => exact Or.inr h2

/-- C6: amended schema-mutation claim.  `check_structure` does mutate a
caller-supplied schema dictionary in place (only the `files is None` default
deep-copies `EXPERIMENT_STRUCTURE`, and recursion deep-copies child nodes):
after a successful call every top-level key of the caller's dictionary either
still holds its original value or has been overwritten with a boolean match
result. -/
theorem c6_schema_mutation_amended (fuel : Nat) (t : Option FSTree) (files : SDict)
    (create remove : Bool) (out : Option FSTree × SDict × Bool)
    (hok : check_structure fuel t files create remove = Except.ok out) :
    ∀ k, lookupS out.2.1 k = lookupS files k
         ∨ ∃ b, lookupS out.2.1 k = some (SchemaVal.bool b) := by
  cases fuel with
  | zero => cases hok
  | succ fu =>
      simp only [check_structure] at hok
      by_cases hstar : truthyS ((lookupS files "*").getD (SchemaVal.bool false))
      · rw [if_pos hstar] at hok
        injection hok with h
        subst h
        intro k
        exact Or.inl rfl
      · rw [if_neg hstar] at hok
        cases ht1 : (if create && t.isNone then some (FSTree.dir []) else t) with
        | none => rw [ht1] at hok; cases hok
        | some tt =>
            rw [ht1] at hok
            cases tt with
            | file => cases hok
            | dir es =>
                cases hp : processItems (fun c d => check_structure fu c d create remove) remove
                    ((if create then seedsOf files else []) ++ es.map Prod.fst) es files with
                | error e =>
                    simp only [hp, exceptBind_err] at hok
                    exact Except.noConfusion hok
                | ok r =>
                    simp only [hp, exceptBind_ok] at hok
                    injection hok with h
                    subst h
                    exact processItems_files_shape _ remove _ es files r hp

/-- C6 witness: on a directory holding `a.txt` with caller schema
`{a.txt: False}`, the surviving value is a boolean overwrite. -/
theorem c6_schema_mutation_amended_witness :
    lookupS [("a.txt", SchemaVal.bool true)] "a.txt" =
      lookupS [("a.txt", SchemaVal.bool false)] "a.txt"
    ∨ ∃ b, lookupS [("a.txt", SchemaVal.bool true)] "a.txt" = some (SchemaVal.bool b) :=
  c6_schema_mutation_amended 1 (some (FSTree.dir [("a.txt", FSTree.file)]))
    [("a.txt", SchemaVal.bool false)] false false
    (some (FSTree.dir [("a.txt", FSTree.file)]), [("a.txt", SchemaVal.bool true)], true)
    rfl "a.txt"

/-- C6 counterexample: validating `{a.txt: False}` against a directory that
holds `a.txt` rewrites the caller-supplied dictionary to `{a.txt: True}` — the
schema argument is not left unchanged, refuting the claim as stated. -/
theorem c6_counterexample :
    check_structure 1 (some (FSTree.dir [("a.txt", FSTree.file)]))
        [("a.txt", SchemaVal.bool false)] false false =
      Except.ok (some (FSTree.dir [("a.txt", FSTree.file)]),
                 [("a.txt", SchemaVal.bool true)], true)
    ∧ ¬ ([("a.txt", SchemaVal.bool true)] = ([("a.txt", SchemaVal.bool false)] : SDict)) :=
  ⟨rfl, by simp⟩

theorem flat_updateS (f : SDict) (m : String) (v : SchemaVal)
    (hflat : ∀ p ∈ f, isBoolS p.2 = true) (hv : isBoolS v = true) :
    ∀ p ∈ updateS f m v, isBoolS p.2 = true := by
  induction f with
  | nil =>
      intro p hp
      unfold updateS at hp
      rcases List.mem_cons.mp hp with hp | hp
      · cases hp; exact hv
      · exact absurd hp (List.not_mem_nil p)
  | cons q rest ih =>
      obtain ⟨a, w⟩ := q
      intro p hp
      unfold updateS at hp
      by_cases h : a = m
      · rw [if_pos (by simp [h])] at hp
        rcases List.mem_cons.mp hp with hp | hp
        · cases hp; exact hv
        · exact hflat p (List.mem_cons_of_mem _ hp)
      · rw [if_neg (by simp [h])] at hp
        rcases List.mem_cons.mp hp with hp | hp
        · exact hflat _ (hp ▸ List.mem_cons_self _ _)
        · exact ih (fun q hq => hflat q (List.mem_cons_of_mem _ hq)) p hp

theorem processItems_flat
    (checkRec : Option FSTree → SDict → Except String (Option FSTree × SDict × Bool))
    (k : String) :
    ∀ (items : List String) (es : List (String × FSTree)) (f : SDict),
      (∀ p ∈ f, isBoolS p.2 = true) →
      lookupS f k = some (SchemaVal.bool false) →
      (∀ n ∈ items, n ≠ k ∧ wildcardOf n ≠ k) →
      ∃ f2, processItems checkRec false items es f = Except.ok (es, f2) ∧
            lookupS f2 k = some (SchemaVal.bool false) := by
  intro items
  induction items with
  | nil =>
      intro es f hflat hk hmiss
      exact ⟨f, rfl, hk⟩
  | cons item rest ih =>
      intro es f hflat hk hmiss
      unfold processItems
      cases hm : mtchOf f item with
      | none =>
          simp only [Bool.false_eq_true, if_false]
          exact ih es f hflat hk (fun n hn => hmiss n (List.mem_cons_of_mem _ hn))
      | some mv =>
          obtain ⟨m, v⟩ := mv
          obtain ⟨hlook, hmm⟩ := mtchOf_eq f item m v hm
          cases v with
          | node d =>
              have := hflat _ (lookupS_mem f m _ hlook)
              cases this
          | bool b =>
              have hboth := hmiss item (List.mem_cons_self _ _)
              have hmk : m ≠ k := by
                rcases hmm with rfl | rfl
                · exact hboth.1
                · exact hboth.2
              have hk2 : lookupS (updateS f m (SchemaVal.bool true)) k =
                  some (SchemaVal.bool false) := by
                rw [lookupS_updateS_ne f m k _ (fun he => hmk he.symm)]
                exact hk
              exact ih es _ (flat_updateS f m _ hflat rfl) hk2
                (fun n hn => hmiss n (List.mem_cons_of_mem _ hn))

/-- C7: amended missing-entry claim.  On an existing directory checked with
`create=false`, `remove=false` against a flat boolean schema (no star key)
holding a false-marked key matched by no entry, `check_structure` returns
`False` without raising and leaves both the directory and its entries
untouched.  On a missing path, however, the listing raises (see the
counterexample) instead of returning `False`, unless the schema short-circuits
through a truthy star wildcard. -/
theorem c7_missing_entries_amended (fuel : Nat) (es : List (String × FSTree))
    (files : SDict) (k : String)
    (hstar : lookupS files "*" = Option.none)
    (hflat : ∀ p ∈ files, isBoolS p.2 = true)
    (hk : lookupS files k = some (SchemaVal.bool false))
    (hmiss : ∀ n ∈ es.map Prod.fst, n ≠ k ∧ wildcardOf n ≠ k) :
    ∃ f2, check_structure (fuel + 1) (some (FSTree.dir es)) files false false =
            Except.ok (some (FSTree.dir es), f2, false) := by
  obtain ⟨f2, hpi, hk2⟩ := processItems_flat
      (fun c d => check_structure fuel c d false false) k (es.map Prod.fst) es files
      hflat hk hmiss
  refine ⟨f2, ?_⟩
  simp only [check_structure, hstar, Option.getD_none, truthyS, Bool.false_and,
             Bool.false_eq_true, if_false, List.nil_append, hpi, exceptBind_ok]
  rw [allValues_false_of f2 k hk2]

/-- C7 witness: directory holding only `b.txt`, schema requiring `a.txt`
(false leaf) and optionally `b.txt` — the check returns `False`, raises
nothing, and changes nothing. -/
theorem c7_missing_entries_amended_witness :
    ∃ f2, check_structure 1
        (some (FSTree.dir [("b.txt", FSTree.file)]))
        [("a.txt", SchemaVal.bool false), ("b.txt", SchemaVal.bool false)]
        false false =
      Except.ok (some (FSTree.dir [("b.txt", FSTree.file)]), f2, false) :=
  c7_missing_entries_amended 0 [("b.txt", FSTree.file)]
    [("a.txt", SchemaVal.bool false), ("b.txt", SchemaVal.bool false)] "a.txt"
    rfl (by decide) rfl (by decide)

/-- C7 counterexample: with `create=false` and `remove=false` on a missing
path (schema without a star key), `check_structure` raises — `listdir` fails
with `FileNotFoundError` — instead of returning `False`, refuting the claim
that the missing-path case is reported as an overall-false validity without
raising. -/
theorem c7_counterexample :
    check_structure 1 Option.none [("a.txt", SchemaVal.bool false)] false false =
      Except.error "FileNotFoundError" := rfl

/-- C2: amended wildcard-matching claim.  A schema wildcard `stem.*` matches
every directory entry whose `splitext` stem equals `stem` and that is not
itself a schema key — including the bare extensionless name `stem`, because
`splitext("stem")` yields the stem with an empty extension, so the computed
wildcard candidate is again `stem.*`. -/
theorem c2_wildcard_matching_amended (files : SDict) (item : String) (v : SchemaVal)
    (hnot : lookupS files item = Option.none)
    (hw : lookupS files (wildcardOf item) = some v) :
    mtchOf files item = some (wildcardOf item, v) := by
  unfold mtchOf
  rw [hnot, hw]

/-- C2 witness: against the schema `{report.*: False}`, the entries
`report.txt` and `report.json` match the wildcard — and so does the bare
extensionless `report`. -/
theorem c2_wildcard_matching_amended_witness :
    mtchOf [("report.*", SchemaVal.bool false)] "report" =
      some ("report.*", SchemaVal.bool false)
    ∧ mtchOf [("report.*", SchemaVal.bool false)] "report.txt" =
      some ("report.*", SchemaVal.bool false)
    ∧ mtchOf [("report.*", SchemaVal.bool false)] "report.json" =
      some ("report.*", SchemaVal.bool false) :=
  ⟨c2_wildcard_matching_amended [("report.*", SchemaVal.bool false)] "report"
      (SchemaVal.bool false) rfl rfl,
   c2_wildcard_matching_amended [("report.*", SchemaVal.bool false)] "report.txt"
      (SchemaVal.bool false) rfl rfl,
   c2_wildcard_matching_amended [("report.*", SchemaVal.bool false)] "report.json"
      (SchemaVal.bool false) rfl rfl⟩

/-- C2 counterexample: the bare extensionless entry `report` does match the
schema key `report.*` — the matcher marks the wildcard slot satisfied and
reports the tree conformant — refuting the claim that `report` is not matched
by `report.*`. -/
theorem c2_counterexample :
    ¬ (mtchOf [("report.*", SchemaVal.bool false)] "report" = Option.none)
    ∧ check_structure 1 (some (FSTree.dir [("report", FSTree.file)]))
        [("report.*", SchemaVal.bool false)] false false =
      Except.ok (some (FSTree.dir [("report", FSTree.file)]),
                 [("report.*", SchemaVal.bool true)], true) :=
  ⟨fun h => Option.noConfusion h, rfl⟩

/-! ## Fixpoint lemmas for the Schema Matcher re-run -/

theorem lookupFS_setChild_self (es : List (String × FSTree)) (m : String) (c : FSTree) :
    lookupFS (setChild es m c) m = some c := by
  induction es with
  | nil => simp [setChild, lookupFS]
  | cons p rest ih =>
      obtain ⟨a, w⟩ := p
      unfold setChild
      by_cases h : a = m
      · simp [h, lookupFS]
      · rw [if_neg (by simp [h])]
        unfold lookupFS
        rw [if_neg (by simp [h])]
        exact ih

theorem lookupFS_setChild_ne (es : List (String × FSTree)) (m k : String) (c : FSTree)
    (hk : k ≠ m) : lookupFS (setChild es m c) k = lookupFS es k := by
  induction es with
  | nil =>
      unfold setChild lookupFS
      rw [if_neg (by simp only [beq_iff_eq]; exact fun he => hk he.symm)]
      rfl
  | cons p rest ih =>
      obtain ⟨a, w⟩ := p
      unfold setChild
      by_cases h : a = m
      · rw [if_pos (by simp [h])]
        unfold lookupFS
        rw [if_neg (by simp only [beq_iff_eq]; exact fun he => hk (he.symm.trans h)),
            if_neg (by simp only [beq_iff_eq]; exact fun he => hk (he.symm.trans h))]
      · rw [if_neg (by simp [h])]
        unfold lookupFS
        by_cases h2 : a = k
        · simp [h2]
        · rw [if_neg (by simp [h2]), if_neg (by simp [h2])]
          exact ih

theorem setChild_self (es : List (String × FSTree)) (m : String) (c : FSTree)
    (h : lookupFS es m = some c) : setChild es m c = es := by
  induction es with
  | nil => cases h
  | cons p rest ih =>
      obtain ⟨a, w⟩ := p
      unfold lookupFS at h
      unfold setChild
      by_cases ha : a = m
      · rw [if_pos (by simp [ha])] at h
        injection h with h
        rw [if_pos (by simp [ha]), h]
      · rw [if_neg (by simp [ha])] at h
        rw [if_neg (by simp [ha]), ih h]

theorem lookupFS_removeEntry_ne (es : List (String × FSTree)) (i k : String)
    (hk : k ≠ i) : lookupFS (removeEntry es i) k = lookupFS es k := by
  induction es with
  | nil => rfl
  | cons p rest ih =>
      obtain ⟨a, w⟩ := p
      unfold removeEntry
      by_cases h : a = i
      · rw [if_pos (by simp [h])]
        have hr : lookupFS ((a, w) :: rest) k =
            if (a == k) = true then some w else lookupFS rest k := rfl
        rw [hr, if_neg (by simp only [beq_iff_eq]; exact fun he => hk (he.symm.trans h))]
      · rw [if_neg (by simp [h])]
        unfold lookupFS
        by_cases h2 : a = k
        · simp [h2]
        · rw [if_neg (by simp [h2]), if_neg (by simp [h2])]
          exact ih

theorem removeEntry_of_not_mem (es : List (String × FSTree)) (i : String)
    (h : i ∉ es.map Prod.fst) : removeEntry es i = es := by
  induction es with
  | nil => rfl
  | cons p rest ih =>
      obtain ⟨a, w⟩ := p
      unfold removeEntry
      have ha : a ≠ i := fun he => h (by simp [he])
      rw [if_neg (by simp [ha])]
      rw [ih (fun hm => h (List.mem_cons_of_mem _ hm))]

theorem mem_fst_removeEntry (es : List (String × FSTree)) (i nm : String)
    (h : nm ∈ (removeEntry es i).map Prod.fst) : nm ∈ es.map Prod.fst := by
  induction es with
  | nil => exact h
  | cons p rest ih =>
      obtain ⟨a, w⟩ := p
      unfold removeEntry at h
      by_cases ha : a = i
      · rw [if_pos (by simp [ha])] at h
        exact List.mem_cons_of_mem _ h
      · rw [if_neg (by simp [ha])] at h
        rcases List.mem_cons.mp h with h | h
        · exact h ▸ List.mem_cons_self _ _
        · exact List.mem_cons_of_mem _ (ih h)

theorem mem_fst_setChild (es : List (String × FSTree)) (m nm : String) (c : FSTree)
    (h : nm ∈ (setChild es m c).map Prod.fst) : nm ∈ es.map Prod.fst ∨ nm = m := by
  induction es with
  | nil =>
      unfold setChild at h
      rcases List.mem_cons.mp h with h | h
      · exact Or.inr h
      · exact absurd h (List.not_mem_nil nm)
  | cons p rest ih =>
      obtain ⟨a, w⟩ := p
      unfold setChild at h
      by_cases ha : a = m
      · rw [if_pos (by simp [ha])] at h
        rcases List.mem_cons.mp h with h | h
        · exact Or.inl (by simp [h])
        · exact Or.inl (List.mem_cons_of_mem _ h)
      · rw [if_neg (by simp [ha])] at h
        rcases List.mem_cons.mp h with h | h
        · exact Or.inl (by simp [h])
        · rcases ih h with h | h
          · exact Or.inl (List.mem_cons_of_mem _ h)
          · exact Or.inr h

theorem count_fst_removeEntry_self (es : List (String × FSTree)) (i : String) :
    ((removeEntry es i).map Prod.fst).count i = ((es.map Prod.fst).count i) - 1 := by
  induction es with
  | nil => rfl
  | cons p rest ih =>
      obtain ⟨a, w⟩ := p
      unfold removeEntry
      by_cases ha : a = i
      · rw [if_pos (by simp [ha])]
        simp [ha, List.count_cons]
      · rw [if_neg (by simp [ha])]
        have hai : (a == i) = false := by simp [ha]
        simp [List.count_cons, hai, ih]

theorem count_fst_removeEntry_ne (es : List (String × FSTree)) (i k : String)
    (hk : k ≠ i) :
    ((removeEntry es i).map Prod.fst).count k = (es.map Prod.fst).count k := by
  induction es with
  | nil => rfl
  | cons p rest ih =>
      obtain ⟨a, w⟩ := p
      unfold removeEntry
      by_cases ha : a = i
      · rw [if_pos (by simp [ha])]
        have hak : (a == k) = false := by
          rw [beq_eq_false_iff_ne]
          exact fun he => hk (he ▸ ha)
        simp [List.count_cons, hak]
      · rw [if_neg (by simp [ha])]
        simp [List.count_cons, ih]

theorem count_fst_setChild_ne (es : List (String × FSTree)) (m k : String) (c : FSTree)
    (hk : k ≠ m) :
    ((setChild es m c).map Prod.fst).count k = (es.map Prod.fst).count k := by
  induction es with
  | nil =>
      unfold setChild
      have hmk : (m == k) = false := by
        rw [beq_eq_false_iff_ne]
        exact fun he => hk he.symm
      simp [List.count_cons, hmk]
  | cons p rest ih =>
      obtain ⟨a, w⟩ := p
      unfold setChild
      by_cases ha : a = m
      · rw [if_pos (by simp [ha])]
        simp [List.count_cons]
      · rw [if_neg (by simp [ha])]
        simp [List.count_cons, ih]

theorem keysEq_none (f g : SDict) (h : keysEq f g) (k : String)
    (hk : lookupS f k = Option.none) : lookupS g k = Option.none := by
  have h2 := h k
  rw [hk] at h2
  cases hg : lookupS g k with
  | none => rfl
  | some v => rw [hg] at h2; cases h2

theorem keysEq_some (f g : SDict) (h : keysEq f g) (k : String) (v : SchemaVal)
    (hk : lookupS f k = some v) : ∃ v2, lookupS g k = some v2 := by
  have h2 := h k
  rw [hk] at h2
  cases hg : lookupS g k with
  | none => rw [hg] at h2; cases h2
  | some v2 => exact ⟨v2, rfl⟩

theorem keysEq_updateS (f g : SDict) (m : String) (v : SchemaVal)
    (h : keysEq f g) (hm : (lookupS f m).isSome = true) :
    keysEq (updateS f m v) g := by
  intro k
  by_cases hk : k = m
  · subst hk
    rw [lookupS_updateS_self]
    rw [← h k, hm]
    rfl
  · rw [lookupS_updateS_ne f m k v hk]
    exact h k

theorem mtch_none_trans (f g : SDict) (h : keysEq f g) (i : String)
    (hm : mtchOf f i = Option.none) : mtchOf g i = Option.none := by
  unfold mtchOf at *
  cases h1 : lookupS f i with
  | some v => rw [h1] at hm; cases hm
  | none =>
      rw [keysEq_none f g h i h1]
      rw [h1] at hm
      cases h2 : lookupS f (wildcardOf i) with
      | some v => rw [h2] at hm; cases hm
      | none => rw [keysEq_none f g h _ h2]

theorem mtch_some_trans (f g : SDict) (h : keysEq f g) (i m : String) (v : SchemaVal)
    (hm : mtchOf f i = some (m, v)) : ∃ v2, mtchOf g i = some (m, v2) := by
  unfold mtchOf at *
  cases h1 : lookupS f i with
  | some w =>
      rw [h1] at hm
      injection hm with hm
      injection hm with hm1 hm2
      subst hm1
      obtain ⟨v2, hv2⟩ := keysEq_some f g h i w h1
      rw [hv2]
      exact ⟨v2, rfl⟩
  | none =>
      rw [h1] at hm
      rw [keysEq_none f g h i h1]
      cases h2 : lookupS f (wildcardOf i) with
      | some w =>
          rw [h2] at hm
          injection hm with hm
          injection hm with hm1 hm2
          subst hm1
          obtain ⟨v2, hv2⟩ := keysEq_some f g h _ _ h2
          rw [hv2]
          exact ⟨v2, rfl⟩
      | none => rw [h2] at hm; cases hm

theorem lookupS_isSome_of_mem (f : SDict) (k : String) (v : SchemaVal)
    (h : (k, v) ∈ f) : (lookupS f k).isSome = true := by
  induction f with
  | nil => exact absurd h (List.not_mem_nil _)
  | cons p rest ih =>
      obtain ⟨a, w⟩ := p
      unfold lookupS
      by_cases ha : a = k
      · rw [if_pos (by simp [ha])]; rfl
      · rw [if_neg (by simp [ha])]
        rcases List.mem_cons.mp h with h | h
        · injection h with h1 h2; exact absurd h1.symm ha
        · exact ih h

theorem seeds_isSome (f : SDict) (i : String) (h : i ∈ seedsOf f) :
    (lookupS f i).isSome = true := by
  unfold seedsOf at h
  obtain ⟨p, hp, hpi⟩ := List.mem_map.mp h
  obtain ⟨a, w⟩ := p
  subst hpi
  exact lookupS_isSome_of_mem f a w (List.mem_filter.mp hp).1

theorem node_mem_seeds (f : SDict) (m : String) (d : SDict)
    (h : lookupS f m = some (SchemaVal.node d)) : m ∈ seedsOf f := by
  unfold seedsOf
  exact List.mem_map.mpr ⟨(m, SchemaVal.node d),
    List.mem_filter.mpr ⟨lookupS_mem f m _ h, by simp [isBoolS]⟩, rfl⟩

theorem lookupFS_mem_fst (es : List (String × FSTree)) (m : String) (c : FSTree)
    (h : lookupFS es m = some c) : m ∈ es.map Prod.fst := by
  induction es with
  | nil => cases h
  | cons p rest ih =>
      obtain ⟨a, w⟩ := p
      unfold lookupFS at h
      by_cases ha : a = m
      · simp [ha]
      · rw [if_neg (by simp [ha])] at h
        exact List.mem_cons_of_mem _ (ih h)

theorem mtch_none_key (g : SDict) (nm : String) (h : mtchOf g nm = Option.none) :
    lookupS g nm = Option.none := by
  unfold mtchOf at h
  cases hl : lookupS g nm with
  | none => rfl
  | some v => rw [hl] at h; cases h

theorem check_structure_out_none (fu : Nat) (t : Option FSTree) (files : SDict)
    (create remove : Bool) (f2 : SDict) (b : Bool)
    (h : check_structure fu t files create remove = Except.ok (Option.none, f2, b)) :
    t = Option.none := by
  cases fu with
  | zero => cases h
  | succ fv =>
      simp only [check_structure] at h
      by_cases hstar : truthyS ((lookupS files "*").getD (SchemaVal.bool false))
      · rw [if_pos hstar] at h
        simp only [Except.ok.injEq, Prod.mk.injEq] at h
        obtain ⟨h1, _⟩ := h
        by_cases hc : (create && t.isNone) = true
        · rw [if_pos hc] at h1; cases h1
        · rw [if_neg hc] at h1; exact h1
      · rw [if_neg hstar] at h
        cases ht1 : (if create && t.isNone then some (FSTree.dir []) else t) with
        | none => rw [ht1] at h; cases h
        | some tt =>
            rw [ht1] at h
            cases tt with
            | file => cases h
            | dir es =>
                cases hp : processItems (fun c d => check_structure fv c d create remove)
                    remove ((if create then seedsOf files else []) ++ es.map Prod.fst)
                    es files with
                | error e => simp only [hp, exceptBind_err] at h; cases h
                | ok r =>
                    simp only [hp, exceptBind_ok] at h
                    simp only [Except.ok.injEq, Prod.mk.injEq] at h
                    obtain ⟨h1, _⟩ := h
                    cases h1

theorem check_structure_create_of_some (fu : Nat) (files : SDict)
    (create remove : Bool) (tt : FSTree) (f2 : SDict) (b : Bool)
    (h : check_structure fu Option.none files create remove =
      Except.ok (some tt, f2, b)) :
    create = true := by
  cases fu with
  | zero => cases h
  | succ fv =>
      cases hc : create with
      | true => rfl
      | false =>
          rw [hc] at h
          simp only [check_structure, Bool.false_and, Bool.false_eq_true, if_false] at h
          by_cases hstar : truthyS ((lookupS files "*").getD (SchemaVal.bool false))
          · rw [if_pos hstar] at h
            simp only [Except.ok.injEq, Prod.mk.injEq] at h
            obtain ⟨h1, _⟩ := h
            cases h1
          · rw [if_neg hstar] at h
            cases h

theorem adjust_adjust (create : Bool) (t : Option FSTree) :
    (if create && (if create && t.isNone then some (FSTree.dir []) else t).isNone
     then some (FSTree.dir [])
     else (if create && t.isNone then some (FSTree.dir []) else t)) =
    (if create && t.isNone then some (FSTree.dir []) else t) := by
  by_cases hc : (create && t.isNone) = true <;> simp [hc]

theorem processItems_run_facts (fu : Nat) (create remove : Bool) (f0 : SDict) :
    ∀ (items : List String) (es : List (String × FSTree)) (f : SDict)
      (es' : List (String × FSTree)) (f' : SDict),
      processItems (fun c d => check_structure fu c d create remove) remove items es f =
        Except.ok (es', f') →
      keysEq f f0 →
      (∀ m d, lookupS f m = some (SchemaVal.node d) →
        lookupS f0 m = some (SchemaVal.node d)) →
      (∀ m d, lookupS f0 m = some (SchemaVal.node d) →
        lookupS f m = some (SchemaVal.node d) ∨
        ((∃ b, lookupS f m = some (SchemaVal.bool b)) ∧
         childOut fu create remove es m d)) →
      keysEq f' f0 ∧
      (∀ m d, lookupS f0 m = some (SchemaVal.node d) →
        lookupS f' m = some (SchemaVal.node d) ∨
        ((∃ b, lookupS f' m = some (SchemaVal.bool b)) ∧
         childOut fu create remove es' m d)) ∧
      (∀ m b, lookupS f m = some (SchemaVal.bool b) →
        ∃ b2, lookupS f' m = some (SchemaVal.bool b2)) ∧
      (∀ i ∈ items, ∀ m v, mtchOf f i = some (m, v) →
        ∃ b2, lookupS f' m = some (SchemaVal.bool b2)) ∧
      (∀ nm, nm ∈ es'.map Prod.fst →
        nm ∈ es.map Prod.fst ∨
        (create = true ∧ ∃ d, lookupS f0 nm = some (SchemaVal.node d))) ∧
      (remove = true → ∀ nm, mtchOf f0 nm = Option.none →
        (es.map Prod.fst).count nm ≤ items.count nm →
        (es'.map Prod.fst).count nm = 0) := by
  intro items
  induction items with
  | nil =>
      intro es f es' f' h hkeys hrev hinv
      unfold processItems at h
      simp only [Except.ok.injEq, Prod.mk.injEq] at h
      obtain ⟨he, hf⟩ := h
      subst he; subst hf
      refine ⟨hkeys, hinv, fun m b hb => ⟨b, hb⟩,
        fun i hi => absurd hi (List.not_mem_nil i),
        fun nm hnm => Or.inl hnm, ?_⟩
      intro _ nm _ hcount
      exact Nat.le_zero.mp hcount
  | cons item rest ih =>
      intro es f es' f' h hkeys hrev hinv
      unfold processItems at h
      cases hm : mtchOf f item with
      | none =>
          simp only [hm] at h
          have hitem0 : mtchOf f0 item = Option.none := mtch_none_trans f f0 hkeys item hm
          have hl0 : lookupS f0 item = Option.none := mtch_none_key f0 item hitem0
          by_cases hrm : remove = true
          case neg =>
              rw [if_neg hrm] at h
              obtain ⟨K, I, B, M, N, J⟩ := ih es f es' f' h hkeys hrev hinv
              refine ⟨K, I, B, ?_, N, ?_⟩
              · intro i hi m v hmv
                rcases List.mem_cons.mp hi with hi | hi
                · subst hi; rw [hm] at hmv; cases hmv
                · exact M i hi m v hmv
              · intro hr2; exact absurd hr2 hrm
          case pos =>
              rw [if_pos hrm] at h
              have hinv2 : ∀ m d, lookupS f0 m = some (SchemaVal.node d) →
                  lookupS f m = some (SchemaVal.node d) ∨
                  ((∃ b, lookupS f m = some (SchemaVal.bool b)) ∧
                   childOut fu create remove (removeEntry es item) m d) := by
                intro m d h0
                rcases hinv m d h0 with hc | ⟨hb, hco⟩
                · exact Or.inl hc
                · refine Or.inr ⟨hb, ?_⟩
                  have hne : m ≠ item := fun he => by rw [he, hl0] at h0; cases h0
                  unfold childOut at *
                  rw [lookupFS_removeEntry_ne es item m hne]
                  exact hco
              obtain ⟨K, I, B, M, N, J⟩ := ih (removeEntry es item) f es' f' h hkeys hrev hinv2
              refine ⟨K, I, B, ?_, ?_, ?_⟩
              · intro i hi m v hmv
                rcases List.mem_cons.mp hi with hi | hi
                · subst hi; rw [hm] at hmv; cases hmv
                · exact M i hi m v hmv
              · intro nm hnm
                rcases N nm hnm with hn | hn
                · exact Or.inl (mem_fst_removeEntry es item nm hn)
                · exact Or.inr hn
              · intro _ nm hn0 hcount
                refine J hrm nm hn0 ?_
                by_cases hni : nm = item
                · rw [hni, count_fst_removeEntry_self es item]
                  rw [hni] at hcount
                  have hcc : (item :: rest).count item = rest.count item + 1 := by
                    simp [List.count_cons]
                  rw [hcc] at hcount
                  omega
                · rw [count_fst_removeEntry_ne es item nm hni]
                  have : (item :: rest).count nm = rest.count nm := by
                    have hine : (item == nm) = false := by
                      rw [beq_eq_false_iff_ne]
                      exact fun he => hni he.symm
                    simp [List.count_cons, hine]
                  rw [this] at hcount
                  exact hcount
      | some mv =>
          obtain ⟨m, v⟩ := mv
          simp only [hm] at h
          have hfm : lookupS f m = some v := (mtchOf_eq f item m v hm).1
          have hitem0 : ∃ v2, mtchOf f0 item = some (m, v2) :=
            mtch_some_trans f f0 hkeys item m v hm
          have hkff2 : ∀ w, keysEq (updateS f m w) f0 :=
            fun w => keysEq_updateS f f0 m w hkeys (by rw [hfm]; rfl)
          cases v with
          | bool b =>
              have hrev2 : ∀ m2 d2,
                  lookupS (updateS f m (SchemaVal.bool true)) m2 = some (SchemaVal.node d2) →
                  lookupS f0 m2 = some (SchemaVal.node d2) := by
                intro m2 d2 h2
                by_cases hm2 : m2 = m
                · subst hm2; rw [lookupS_updateS_self] at h2; cases h2
                · rw [lookupS_updateS_ne f m m2 _ hm2] at h2; exact hrev m2 d2 h2
              have hinv2 : ∀ m2 d2, lookupS f0 m2 = some (SchemaVal.node d2) →
                  lookupS (updateS f m (SchemaVal.bool true)) m2 = some (SchemaVal.node d2) ∨
                  ((∃ b2, lookupS (updateS f m (SchemaVal.bool true)) m2 =
                      some (SchemaVal.bool b2)) ∧
                   childOut fu create remove es m2 d2) := by
                intro m2 d2 h0
                by_cases hm2 : m2 = m
                · subst hm2
                  rcases hinv m2 d2 h0 with hc | ⟨_, hco⟩
                  · rw [hfm] at hc; cases hc
                  · exact Or.inr ⟨⟨true, lookupS_updateS_self f m2 _⟩, hco⟩
                · rw [lookupS_updateS_ne f m m2 _ hm2]
                  exact hinv m2 d2 h0
              obtain ⟨K, I, B, M, N, J⟩ := ih es _ es' f' h (hkff2 _) hrev2 hinv2
              have hBf : ∀ m2 b2, lookupS f m2 = some (SchemaVal.bool b2) →
                  ∃ b3, lookupS f' m2 = some (SchemaVal.bool b3) := by
                intro m2 b2 hb2
                by_cases hm2 : m2 = m
                · subst hm2
                  exact B m2 true (lookupS_updateS_self f m2 _)
                · exact B m2 b2 (by rw [lookupS_updateS_ne f m m2 _ hm2]; exact hb2)
              refine ⟨K, I, hBf, ?_, N, ?_⟩
              · intro i hi m2 v2 hmv
                rcases List.mem_cons.mp hi with hi | hi
                · subst hi
                  rw [hm] at hmv
                  injection hmv with hmv
                  injection hmv with hmv1 hmv2
                  subst hmv1
                  exact B m true (lookupS_updateS_self f m _)
                · have hkf2 : keysEq f (updateS f m (SchemaVal.bool true)) :=
                    fun k => (hkeys k).trans ((hkff2 _) k).symm
                  obtain ⟨v3, hv3⟩ := mtch_some_trans f _ hkf2 i m2 v2 hmv
                  exact M i hi m2 v3 hv3
              · intro hr2 nm hn0 hcount
                refine J hr2 nm hn0 ?_
                have hine : item ≠ nm := by
                  intro he
                  obtain ⟨v2, hv2⟩ := hitem0
                  rw [he, hn0] at hv2
                  cases hv2
                have : (item :: rest).count nm = rest.count nm := by
                  have hb2 : (item == nm) = false := by
                    rw [beq_eq_false_iff_ne]; exact hine
                  simp [List.count_cons, hb2]
                rw [this] at hcount
                exact hcount
          | node d =>
              have hf0m : lookupS f0 m = some (SchemaVal.node d) := hrev m d hfm
              have h2 : (check_structure fu (lookupFS es m) d create remove >>= fun r =>
                  processItems (fun c d => check_structure fu c d create remove) remove rest
                    (match r.1 with
                     | some c => setChild es m c
                     | Option.none => es)
                    (updateS f m (SchemaVal.bool r.2.2))) = Except.ok (es', f') := h
              cases hr : check_structure fu (lookupFS es m) d create remove with
              | error e =>
                  rw [hr] at h2
                  simp only [exceptBind_err] at h2
                  cases h2
              | ok r =>
                  obtain ⟨rt, rf, rb⟩ := r
                  rw [hr] at h2
                  simp only [exceptBind_ok] at h2
                  have hrev2 : ∀ m2 d2,
                      lookupS (updateS f m (SchemaVal.bool rb)) m2 = some (SchemaVal.node d2) →
                      lookupS f0 m2 = some (SchemaVal.node d2) := by
                    intro m2 d2 hx2
                    by_cases hm2 : m2 = m
                    · subst hm2; rw [lookupS_updateS_self] at hx2; cases hx2
                    · rw [lookupS_updateS_ne f m m2 _ hm2] at hx2; exact hrev m2 d2 hx2
                  have hBf2 : ∀ (f2 : SDict),
                      (∀ m2 b2, lookupS (updateS f m (SchemaVal.bool rb)) m2 =
                        some (SchemaVal.bool b2) → ∃ b3, lookupS f2 m2 = some (SchemaVal.bool b3)) →
                      ∀ m2 b2, lookupS f m2 = some (SchemaVal.bool b2) →
                      ∃ b3, lookupS f2 m2 = some (SchemaVal.bool b3) := by
                    intro f2 B m2 b2 hb2
                    by_cases hm2 : m2 = m
                    · subst hm2
                      exact B m2 rb (lookupS_updateS_self f m2 _)
                    · exact B m2 b2 (by rw [lookupS_updateS_ne f m m2 _ hm2]; exact hb2)
                  cases rt with
                  | some c =>
                      have hco : childOut fu create remove (setChild es m c) m d := by
                        unfold childOut
                        rw [lookupFS_setChild_self]
                        exact ⟨lookupFS es m, rf, rb, hr⟩
                      have hinv2 : ∀ m2 d2, lookupS f0 m2 = some (SchemaVal.node d2) →
                          lookupS (updateS f m (SchemaVal.bool rb)) m2 =
                            some (SchemaVal.node d2) ∨
                          ((∃ b2, lookupS (updateS f m (SchemaVal.bool rb)) m2 =
                              some (SchemaVal.bool b2)) ∧
                           childOut fu create remove (setChild es m c) m2 d2) := by
                        intro m2 d2 h0
                        by_cases hm2 : m2 = m
                        · subst hm2
                          have hd2 : d2 = d := by
                            rw [hf0m] at h0
                            injection h0 with h0
                            injection h0 with h0
                            exact h0.symm
                          subst hd2
                          exact Or.inr ⟨⟨rb, lookupS_updateS_self f m2 _⟩, hco⟩
                        · rw [lookupS_updateS_ne f m m2 _ hm2]
                          rcases hinv m2 d2 h0 with hc | ⟨hb, hco2⟩
                          · exact Or.inl hc
                          · refine Or.inr ⟨hb, ?_⟩
                            unfold childOut at *
                            rw [lookupFS_setChild_ne es m m2 c (fun he => hm2 he)]
                            exact hco2
                      obtain ⟨K, I, B, M, N, J⟩ :=
                        ih (setChild es m c) _ es' f' h2 (hkff2 _) hrev2 hinv2
                      refine ⟨K, I, hBf2 f' B, ?_, ?_, ?_⟩
                      · intro i hi m2 v2 hmv
                        rcases List.mem_cons.mp hi with hi | hi
                        · subst hi
                          rw [hm] at hmv
                          injection hmv with hmv
                          injection hmv with hmv1 hmv2
                          subst hmv1
                          exact B m rb (lookupS_updateS_self f m _)
                        · have hkf2 : keysEq f (updateS f m (SchemaVal.bool rb)) :=
                            fun k => (hkeys k).trans ((hkff2 _) k).symm
                          obtain ⟨v3, hv3⟩ := mtch_some_trans f _ hkf2 i m2 v2 hmv
                          exact M i hi m2 v3 hv3
                      · intro nm hnm
                        rcases N nm hnm with hn | hn
                        · rcases mem_fst_setChild es m nm c hn with hn2 | hn2
                          · exact Or.inl hn2
                          · subst hn2
                            cases hch : lookupFS es nm with
                            | some c0 => exact Or.inl (lookupFS_mem_fst es nm c0 hch)
                            | none =>
                                rw [hch] at hr
                                exact Or.inr ⟨check_structure_create_of_some fu d
                                  create remove c rf rb hr, d, hf0m⟩
                        · exact Or.inr hn
                      · intro hr2 nm hn0 hcount
                        have hl0nm : lookupS f0 nm = Option.none := mtch_none_key f0 nm hn0
                        have hmnm : m ≠ nm := fun he => by rw [he, hl0nm] at hf0m; cases hf0m
                        have hine : item ≠ nm := by
                          intro he
                          obtain ⟨v2, hv2⟩ := hitem0
                          rw [he, hn0] at hv2
                          cases hv2
                        refine J hr2 nm hn0 ?_
                        rw [count_fst_setChild_ne es m nm c (fun he => hmnm he.symm)]
                        have : (item :: rest).count nm = rest.count nm := by
                          have hb2 : (item == nm) = false := by
                            rw [beq_eq_false_iff_ne]; exact hine
                          simp [List.count_cons, hb2]
                        rw [this] at hcount
                        exact hcount
                  | none =>
                      have hin : lookupFS es m = Option.none :=
                        check_structure_out_none fu _ d create remove rf rb hr
                      have hco : childOut fu create remove es m d := by
                        unfold childOut
                        rw [hin]
                        exact ⟨lookupFS es m, rf, rb, hr⟩
                      have hinv2 : ∀ m2 d2, lookupS f0 m2 = some (SchemaVal.node d2) →
                          lookupS (updateS f m (SchemaVal.bool rb)) m2 =
                            some (SchemaVal.node d2) ∨
                          ((∃ b2, lookupS (updateS f m (SchemaVal.bool rb)) m2 =
                              some (SchemaVal.bool b2)) ∧
                           childOut fu create remove es m2 d2) := by
                        intro m2 d2 h0
                        by_cases hm2 : m2 = m
                        · subst hm2
                          have hd2 : d2 = d := by
                            rw [hf0m] at h0
                            injection h0 with h0
                            injection h0 with h0
                            exact h0.symm
                          subst hd2
                          exact Or.inr ⟨⟨rb, lookupS_updateS_self f m2 _⟩, hco⟩
                        · rw [lookupS_updateS_ne f m m2 _ hm2]
                          exact hinv m2 d2 h0
                      obtain ⟨K, I, B, M, N, J⟩ := ih es _ es' f' h2 (hkff2 _) hrev2 hinv2
                      refine ⟨K, I, hBf2 f' B, ?_, N, ?_⟩
                      · intro i hi m2 v2 hmv
                        rcases List.mem_cons.mp hi with hi | hi
                        · subst hi
                          rw [hm] at hmv
                          injection hmv with hmv
                          injection hmv with hmv1 hmv2
                          subst hmv1
                          exact B m rb (lookupS_updateS_self f m _)
                        · have hkf2 : keysEq f (updateS f m (SchemaVal.bool rb)) :=
                            fun k => (hkeys k).trans ((hkff2 _) k).symm
                          obtain ⟨v3, hv3⟩ := mtch_some_trans f _ hkf2 i m2 v2 hmv
                          exact M i hi m2 v3 hv3
                      · intro hr2 nm hn0 hcount
                        have hine : item ≠ nm := by
                          intro he
                          obtain ⟨v2, hv2⟩ := hitem0
                          rw [he, hn0] at hv2
                          cases hv2
                        refine J hr2 nm hn0 ?_
                        have : (item :: rest).count nm = rest.count nm := by
                          have hb2 : (item == nm) = false := by
                            rw [beq_eq_false_iff_ne]; exact hine
                          simp [List.count_cons, hb2]
                        rw [this] at hcount
                        exact hcount

theorem processItems_fix (fu : Nat) (create remove : Bool) (f0 f1 : SDict)
    (es1 : List (String × FSTree))
    (ihfix : ∀ (t : Option FSTree) (files : SDict) (t1 : Option FSTree)
      (g1 : SDict) (b1 : Bool),
      check_structure fu t files create remove = Except.ok (t1, g1, b1) →
      ∃ g2 b2, check_structure fu t1 files create remove = Except.ok (t1, g2, b2))
    (hHG : ∀ m d, lookupS f0 m = some (SchemaVal.node d) →
      lookupS f1 m = some (SchemaVal.node d) ∨ childOut fu create remove es1 m d)
    (hHM : ∀ i, ((create = true ∧ i ∈ seedsOf f0) ∨ i ∈ es1.map Prod.fst) →
      ∀ m v, mtchOf f0 i = some (m, v) →
      ∃ b, lookupS f1 m = some (SchemaVal.bool b))
    (hHR : remove = true → ∀ nm ∈ es1.map Prod.fst, ¬ mtchOf f0 nm = Option.none) :
    ∀ (items : List String) (f : SDict),
      (∀ i ∈ items, (create = true ∧ i ∈ seedsOf f0) ∨ i ∈ es1.map Prod.fst) →
      keysEq f f0 →
      (∀ m d, lookupS f m = some (SchemaVal.node d) →
        lookupS f0 m = some (SchemaVal.node d)) →
      ∃ f2, processItems (fun c d => check_structure fu c d create remove) remove
        items es1 f = Except.ok (es1, f2) := by
  intro items
  induction items with
  | nil =>
      intro f _ _ _
      exact ⟨f, rfl⟩
  | cons item rest ih =>
      intro f hU hkeys hrev
      unfold processItems
      cases hm : mtchOf f item with
      | none =>
          have hm0 : mtchOf f0 item = Option.none := mtch_none_trans f f0 hkeys item hm
          by_cases hrm : remove = true
          · rcases hU item (List.mem_cons_self _ _) with ⟨_, hseed⟩ | hmem
            · have hs := seeds_isSome f0 item hseed
              rw [mtch_none_key f0 item hm0] at hs
              cases hs
            · exact absurd hm0 (hHR hrm item hmem)
          · rw [if_neg hrm]
            exact ih f (fun i hi => hU i (List.mem_cons_of_mem _ hi)) hkeys hrev
      | some mv =>
          obtain ⟨m, v⟩ := mv
          have hfm : lookupS f m = some v := (mtchOf_eq f item m v hm).1
          cases v with
          | bool b =>
              have hkeys2 : keysEq (updateS f m (SchemaVal.bool true)) f0 :=
                keysEq_updateS f f0 m _ hkeys (by rw [hfm]; rfl)
              have hrev2 : ∀ m2 d2,
                  lookupS (updateS f m (SchemaVal.bool true)) m2 = some (SchemaVal.node d2) →
                  lookupS f0 m2 = some (SchemaVal.node d2) := by
                intro m2 d2 h2
                by_cases hm2 : m2 = m
                · subst hm2; rw [lookupS_updateS_self] at h2; cases h2
                · rw [lookupS_updateS_ne f m m2 _ hm2] at h2; exact hrev m2 d2 h2
              exact ih _ (fun i hi => hU i (List.mem_cons_of_mem _ hi)) hkeys2 hrev2
          | node dcur =>
              have hf0m : lookupS f0 m = some (SchemaVal.node dcur) := hrev m dcur hfm
              obtain ⟨v2, hv2⟩ := mtch_some_trans f f0 hkeys item m _ hm
              have hv2n : v2 = SchemaVal.node dcur := by
                have hl := (mtchOf_eq f0 item m v2 hv2).1
                rw [hf0m] at hl
                injection hl with hl
                exact hl.symm
              subst hv2n
              obtain ⟨bm, hbm⟩ := hHM item (hU item (List.mem_cons_self _ _)) m _ hv2
              rcases hHG m dcur hf0m with hg | hg
              · rw [hbm] at hg
                injection hg with hg
                cases hg
              · obtain ⟨c0, fd, bd, hc⟩ := hg
                obtain ⟨g2, b2, h2⟩ := ihfix c0 dcur (lookupFS es1 m) fd bd hc
                have hkeys2 : keysEq (updateS f m (SchemaVal.bool b2)) f0 :=
                  keysEq_updateS f f0 m _ hkeys (by rw [hfm]; rfl)
                have hrev2 : ∀ m2 d2,
                    lookupS (updateS f m (SchemaVal.bool b2)) m2 = some (SchemaVal.node d2) →
                    lookupS f0 m2 = some (SchemaVal.node d2) := by
                  intro m2 d2 hx2
                  by_cases hm2 : m2 = m
                  · subst hm2; rw [lookupS_updateS_self] at hx2; cases hx2
                  · rw [lookupS_updateS_ne f m m2 _ hm2] at hx2; exact hrev m2 d2 hx2
                obtain ⟨f2, hrec⟩ :=
                  ih (updateS f m (SchemaVal.bool b2))
                    (fun i hi => hU i (List.mem_cons_of_mem _ hi)) hkeys2 hrev2
                refine ⟨f2, ?_⟩
                show (check_structure fu (lookupFS es1 m) dcur create remove >>= fun r =>
                    processItems (fun c d => check_structure fu c d create remove) remove rest
                      (match r.1 with
                       | some c => setChild es1 m c
                       | Option.none => es1)
                      (updateS f m (SchemaVal.bool r.2.2))) = Except.ok (es1, f2)
                cases hch : lookupFS es1 m with
                | some c1 =>
                    rw [hch] at h2
                    rw [h2]
                    show processItems (fun c d => check_structure fu c d create remove)
                        remove rest (setChild es1 m c1)
                        (updateS f m (SchemaVal.bool b2)) = Except.ok (es1, f2)
                    rw [setChild_self es1 m c1 hch]
                    exact hrec
                | none =>
                    rw [hch] at h2
                    rw [h2]
                    show processItems (fun c d => check_structure fu c d create remove)
                        remove rest es1 (updateS f m (SchemaVal.bool b2)) =
                      Except.ok (es1, f2)
                    exact hrec

theorem check_structure_fix (fuel : Nat) :
    ∀ (t : Option FSTree) (files : SDict) (create remove : Bool)
      (t1 : Option FSTree) (f1 : SDict) (b1 : Bool),
      check_structure fuel t files create remove = Except.ok (t1, f1, b1) →
      ∃ f2 b2, check_structure fuel t1 files create remove = Except.ok (t1, f2, b2) := by
  induction fuel with
  | zero =>
      intro t files create remove t1 f1 b1 h
      cases h
  | succ fu ih =>
      intro t files create remove t1 f1 b1 h
      simp only [check_structure] at h ⊢
      by_cases hstar : truthyS ((lookupS files "*").getD (SchemaVal.bool false))
      · rw [if_pos hstar] at h ⊢
        simp only [Except.ok.injEq, Prod.mk.injEq] at h
        obtain ⟨h1, h2, h3⟩ := h
        subst h1
        refine ⟨files, true, ?_⟩
        rw [adjust_adjust]
      · rw [if_neg hstar] at h ⊢
        cases ht1 : (if create && t.isNone then some (FSTree.dir []) else t) with
        | none => rw [ht1] at h; cases h
        | some tt =>
            rw [ht1] at h
            cases tt with
            | file => cases h
            | dir es0 =>
                cases hp : processItems (fun c d => check_structure fu c d create remove)
                    remove ((if create then seedsOf files else []) ++ es0.map Prod.fst)
                    es0 files with
                | error e => simp only [hp, exceptBind_err] at h; cases h
                | ok r0 =>
                    obtain ⟨es1, f1x⟩ := r0
                    simp only [hp, exceptBind_ok] at h
                    simp only [Except.ok.injEq, Prod.mk.injEq] at h
                    obtain ⟨h1, h2, h3⟩ := h
                    subst h1
                    obtain ⟨K, I, B, M, N, J⟩ :=
                      processItems_run_facts fu create remove files _ es0 files es1 f1x hp
                        (fun k => rfl) (fun m d hm => hm) (fun m d hm => Or.inl hm)
                    have hHG : ∀ m d, lookupS files m = some (SchemaVal.node d) →
                        lookupS f1x m = some (SchemaVal.node d) ∨
                        childOut fu create remove es1 m d := by
                      intro m d hm
                      rcases I m d hm with hc | ⟨_, hco⟩
                      · exact Or.inl hc
                      · exact Or.inr hco
                    have hHM : ∀ i, ((create = true ∧ i ∈ seedsOf files) ∨
                        i ∈ es1.map Prod.fst) →
                        ∀ m v, mtchOf files i = some (m, v) →
                        ∃ b, lookupS f1x m = some (SchemaVal.bool b) := by
                      intro i hi m v hmv
                      have hiU : i ∈ (if create then seedsOf files else []) ++
                          es0.map Prod.fst := by
                        rcases hi with ⟨hc, hseed⟩ | hmem
                        · exact List.mem_append_left _ (by rw [if_pos hc]; exact hseed)
                        · rcases N i hmem with hn | ⟨hc, d2, hnode⟩
                          · exact List.mem_append_right _ hn
                          · exact List.mem_append_left _
                              (by rw [if_pos hc]; exact node_mem_seeds files i d2 hnode)
                      exact M i hiU m v hmv
                    have hHR : remove = true → ∀ nm ∈ es1.map Prod.fst,
                        ¬ mtchOf files nm = Option.none := by
                      intro hrm nm hmem hnone
                      have hprem : (es0.map Prod.fst).count nm ≤
                          ((if create then seedsOf files else []) ++
                            es0.map Prod.fst).count nm := by
                        rw [List.count_append]
                        exact Nat.le_add_left _ _
                      have hz := J hrm nm hnone hprem
                      rw [List.count_eq_zero] at hz
                      exact hz hmem
                    have hside : ∀ i ∈ (if create then seedsOf files else []) ++
                        es1.map Prod.fst,
                        (create = true ∧ i ∈ seedsOf files) ∨ i ∈ es1.map Prod.fst := by
                      intro i hi
                      rcases List.mem_append.mp hi with hi | hi
                      · by_cases hc : create = true
                        · rw [if_pos hc] at hi
                          exact Or.inl ⟨hc, hi⟩
                        · rw [if_neg hc] at hi
                          exact absurd hi (List.not_mem_nil i)
                      · exact Or.inr hi
                    obtain ⟨f2, hC⟩ :=
                      processItems_fix fu create remove files f1x es1
                        (fun t files t1 g1 b1 hx => ih t files create remove t1 g1 b1 hx)
                        hHG hHM hHR
                        ((if create then seedsOf files else []) ++ es1.map Prod.fst)
                        files hside (fun k => rfl) (fun m d hm => hm)
                    refine ⟨f2, allValues f2, ?_⟩
                    have hadj : (if create && (some (FSTree.dir es1) : Option FSTree).isNone
                        then some (FSTree.dir []) else some (FSTree.dir es1)) =
                        some (FSTree.dir es1) := by simp
                    rw [hadj]
                    show (processItems (fun c d => check_structure fu c d create remove)
                        remove ((if create then seedsOf files else []) ++
                          es1.map Prod.fst) es1 files >>= fun r =>
                        Except.ok (some (FSTree.dir r.1), r.2, allValues r.2)) =
                      Except.ok (some (FSTree.dir es1), f2, allValues f2)
                    rw [hC]
                    rfl

/-- C8: amended idempotence claim.  The filesystem half of the claim holds
universally: whatever tree a successful `check_structure` run produces, a
second run on that tree with the same fresh schema and the same `create` and
`remove` flags succeeds and changes nothing — directory creation and deletion
of non-conforming entries are idempotent.  The verdict half is false: the
second run does not always return the same conformance result.  When the
first run creates a missing required subdirectory whose subtree is invalid,
the first run reports `False` while the second reports `True` on the
unchanged tree — the created entry is processed twice (once as a schema seed,
once as a directory entry), and the second processing finds the schema slot
already overwritten by a boolean and unconditionally sets it to `True`
(utils.py line 267). -/
theorem c8_idempotence_amended :
    (∀ (fuel : Nat) (t : Option FSTree) (files : SDict) (create remove : Bool)
       (t1 : Option FSTree) (f1 : SDict) (b1 : Bool),
       check_structure fuel t files create remove = Except.ok (t1, f1, b1) →
       ∃ f2 b2, check_structure fuel t1 files create remove = Except.ok (t1, f2, b2))
    ∧ (∃ t1 f1 f2 r1 r2,
        check_structure 3 (some (FSTree.dir [])) c8schema true false =
          Except.ok (t1, f1, r1)
        ∧ check_structure 3 t1 c8schema true false = Except.ok (t1, f2, r2)
        ∧ r1 = false ∧ r2 = true) :=
  ⟨fun fuel t files create remove t1 f1 b1 h =>
      check_structure_fix fuel t files create remove t1 f1 b1 h,
   ⟨some (FSTree.dir [("sub", FSTree.dir [])]), [("sub", SchemaVal.bool false)],
    [("sub", SchemaVal.bool true)], false, true, rfl, rfl, rfl, rfl⟩⟩

/-- C8 witness: the universal no-filesystem-change conjunct applied to the
concrete first run of the flip scenario — the second run returns the same
tree. -/
theorem c8_idempotence_amended_witness :
    ∃ f2 b2, check_structure 3 (some (FSTree.dir [("sub", FSTree.dir [])]))
        c8schema true false =
      Except.ok (some (FSTree.dir [("sub", FSTree.dir [])]), f2, b2) :=
  c8_idempotence_amended.1 3 (some (FSTree.dir [])) c8schema true false
    (some (FSTree.dir [("sub", FSTree.dir [])])) [("sub", SchemaVal.bool false)]
    false rfl

/-- C8 counterexample: running the matcher with `create=true` twice on the
same (initially empty) tree is not idempotent in its verdict: the second run
makes no filesystem change but returns `True` where the first returned
`False`. -/
theorem c8_counterexample :
    ¬ (∀ out1 out2 : Option FSTree × SDict × Bool,
        check_structure 3 (some (FSTree.dir [])) c8schema true false = Except.ok out1 →
        check_structure 3 out1.1 c8schema true false = Except.ok out2 →
        out2.2.2 = out1.2.2) := by
  intro h
  have h2 := h (some (FSTree.dir [("sub", FSTree.dir [])]),
                [("sub", SchemaVal.bool false)], false)
               (some (FSTree.dir [("sub", FSTree.dir [])]),
                [("sub", SchemaVal.bool true)], true) rfl rfl
  cases h2

/-- C10: two-variant consistency of full-mode generation.  For an arbitrary
non-empty caller-supplied mote list, the feature-excluded variant binds
exactly the feature-included variant's entity list minus its last element,
its `mote_types` binding drops exactly the last (malicious) entity type, and
its position index is the index built over all motes except the last, while
the feature-included index covers all motes. -/
theorem c10_two_variant_consistency
    (genMotes : List PyVal) (m0 : PyVal) (ms : List PyVal)
    (dbg gl nt nn rp mty ext mn tx ir ar mx : PyVal)
    (ti tg tm : String) (du : Int)
    (W W2 : List (Int × (PyVal × PyVal)))
    (hidx : buildIndex (m0 :: ms) = Except.ok W)
    (hidx2 : buildIndex (List.dropLast (m0 :: ms)) = Except.ok W2) :
    ∃ out, render_templates TEMPLATES [] genMotes false
        (Params.mk (PyVal.list (m0 :: ms)) dbg (PyVal.str ti) gl nt (PyVal.int du)
          nn rp (PyVal.str tg) (PyVal.str tm) mty (PyVal.list []) ext mn tx ir ar mx) =
        Except.ok out
      ∧ lookupField out.withFiles "simulation.csc" "motes" = some (PyVal.list (m0 :: ms))
      ∧ lookupField out.withoutFiles "simulation.csc" "motes" =
          some (PyVal.list (List.dropLast (m0 :: ms)))
      ∧ (∃ mt, lookupField out.withFiles "simulation.csc" "mote_types" =
                 some (PyVal.list mt)
             ∧ lookupField out.withoutFiles "simulation.csc" "mote_types" =
                 some (PyVal.list (List.dropLast mt)))
      ∧ out.withIndex = W ∧ out.withoutIndex = W2 := by
  have key : render_templates TEMPLATES [] genMotes false
      (Params.mk (PyVal.list (m0 :: ms)) dbg (PyVal.str ti) gl nt (PyVal.int du)
        nn rp (PyVal.str tg) (PyVal.str tm) mty (PyVal.list []) ext mn tx ir ar mx) =
      (buildIndex (m0 :: ms) >>= fun wI =>
       buildIndex (List.dropLast (m0 :: ms)) >>= fun wI2 =>
       Except.ok
         ⟨[],
          [("motes/root.c", []),
           ("motes/sensor.c", []),
           ("motes/malicious.c", [("constants", PyVal.str "")]),
           ("motes/Makefile", [("target", PyVal.str tg)]),
           ("script.js", [("timeout", PyVal.int (1000 * du)),
                          ("sampling_period", PyVal.int (Int.fdiv (1000 * du) 100))]),
           ("simulation.csc",
             [("title", PyVal.str (ti ++ " (with the malicious mote)")),
              ("goal", gl), ("notes", nt),
              ("interference_range", ir), ("transmitting_range", tx),
              ("target", PyVal.str tg),
              ("target_capitalized", PyVal.str (pyCapitalize tg)),
              ("malicious_target", PyVal.str tm),
              ("malicious_target_capitalized", PyVal.str (pyCapitalize tm)),
              ("motes", PyVal.list (m0 :: ms)),
              ("mote_types", PyVal.list
                [PyVal.dict [("name", PyVal.str "root"), ("target", PyVal.str tg)],
                 PyVal.dict [("name", PyVal.str "sensor"), ("target", PyVal.str tg)],
                 PyVal.dict [("name", PyVal.str "malicious"), ("target", PyVal.str tm)]])])],
          wI,
          [("script.js", [("timeout", PyVal.int (1000 * du)),
                          ("sampling_period", PyVal.int (Int.fdiv (1000 * du) 100))]),
           ("simulation.csc",
             [("title", PyVal.str (ti ++ " (without the malicious mote)")),
              ("goal", gl), ("notes", nt),
              ("interference_range", ir), ("transmitting_range", tx),
              ("target", PyVal.str tg),
              ("target_capitalized", PyVal.str (pyCapitalize tg)),
              ("malicious_target", PyVal.str tm),
              ("malicious_target_capitalized", PyVal.str (pyCapitalize tm)),
              ("motes", PyVal.list (List.dropLast (m0 :: ms))),
              ("mote_types", PyVal.list
                [PyVal.dict [("name", PyVal.str "root"), ("target", PyVal.str tg)],
                 PyVal.dict [("name", PyVal.str "sensor"), ("target", PyVal.str tg)]])])],
          wI2⟩) := rfl
  rw [key, hidx]
  simp only [exceptBind_ok]
  rw [hidx2]
  simp only [exceptBind_ok]
  refine ⟨_, rfl, rfl, rfl, ⟨_, rfl, rfl⟩, rfl, rfl⟩

/-- C10 witness: a concrete two-mote list — the feature-excluded variant
keeps exactly the first mote and its index entry. -/
theorem c10_two_variant_consistency_witness :
    ∃ out, render_templates TEMPLATES [] [] false
        (Params.mk (PyVal.list
            [PyVal.dict [("id", PyVal.int 1), ("x", PyVal.int 3), ("y", PyVal.int 4)],
             PyVal.dict [("id", PyVal.int 2), ("x", PyVal.int 5), ("y", PyVal.int 6)]])
          PyVal.none (PyVal.str "t") PyVal.none PyVal.none (PyVal.int 5)
          PyVal.none PyVal.none (PyVal.str "z1") (PyVal.str "z1") PyVal.none
          (PyVal.list []) PyVal.none PyVal.none PyVal.none PyVal.none PyVal.none
          PyVal.none) =
        Except.ok out
      ∧ lookupField out.withFiles "simulation.csc" "motes" = some (PyVal.list
          [PyVal.dict [("id", PyVal.int 1), ("x", PyVal.int 3), ("y", PyVal.int 4)],
           PyVal.dict [("id", PyVal.int 2), ("x", PyVal.int 5), ("y", PyVal.int 6)]])
      ∧ lookupField out.withoutFiles "simulation.csc" "motes" = some (PyVal.list
          (List.dropLast
            [PyVal.dict [("id", PyVal.int 1), ("x", PyVal.int 3), ("y", PyVal.int 4)],
             PyVal.dict [("id", PyVal.int 2), ("x", PyVal.int 5), ("y", PyVal.int 6)]]))
      ∧ (∃ mt, lookupField out.withFiles "simulation.csc" "mote_types" =
                 some (PyVal.list mt)
             ∧ lookupField out.withoutFiles "simulation.csc" "mote_types" =
                 some (PyVal.list (List.dropLast mt)))
      ∧ out.withIndex = [(1, (PyVal.int 3, PyVal.int 4)), (2, (PyVal.int 5, PyVal.int 6))]
      ∧ out.withoutIndex = [(1, (PyVal.int 3, PyVal.int 4))] :=
  c10_two_variant_consistency []
    (PyVal.dict [("id", PyVal.int 1), ("x", PyVal.int 3), ("y", PyVal.int 4)])
    [PyVal.dict [("id", PyVal.int 2), ("x", PyVal.int 5), ("y", PyVal.int 6)]]
    PyVal.none PyVal.none PyVal.none PyVal.none PyVal.none PyVal.none PyVal.none
    PyVal.none PyVal.none PyVal.none PyVal.none PyVal.none
    "t" "z1" "z1" 5
    [(1, (PyVal.int 3, PyVal.int 4)), (2, (PyVal.int 5, PyVal.int 6))]
    [(1, (PyVal.int 3, PyVal.int 4))] rfl rfl
